import Mathlib

/-!
# A verification development for the AveJS compiler front-end

This file gives a shallow embedding, in Lean 4, of the core of the AveJS
front-end (an indentation-sensitive, statically typed language compiling to
JavaScript): the token model, the lexer (`src/lexer/lexer.ts`), the type
registry and operator tables (`src/types/types.ts`, `src/types/function-type.ts`,
`src/types/generic-type.ts`), and the parser (`src/parser/aveparser.ts` with its
type-annotation parselet), together with theorems about them.

Modelling conventions, used throughout:

* TypeScript numbers that are used as array indices, ids and positions are
  modelled as `Nat`.  Floating point payloads of numeric literal tokens are
  never inspected by any property proved here, so a numeric literal token
  carries the numeral's text instead of an IEEE double.
* JavaScript reference equality (`==` / `!=`) between `Type` objects is
  modelled as structural equality.  All comparisons exercised by the theorems
  below compare against the primitive singletons (`t_any`, `t_number`,
  `t_string`, `t_error`), where reference and structural equality agree,
  since the singletons are constructed exactly once and every other `Type`
  object carries a distinct id.
* Code that can loop (the lexer's scan loop, the parser's recursive descent)
  is run on an explicit fuel; `none` means the fuel ran out before the
  function returned.  A result `some _` is the value the TypeScript code
  returns; an input on which the result is `none` for every fuel is an input
  on which the TypeScript code never returns.
-/

/-! ## Token kinds

Modelled from the spec: the file `src/lexer/tokentype.ts` is not part of the
sources; the enumeration below lists the token kinds named in the spec
(punctuation, operators and compound assignments, comparison, logical, unary,
arrow, keywords, the primitive type names `num str bool any object void`,
literals, `NAME` and the layout tokens), in the spec's order of presentation,
so that the numeric values of the members of the block of primitive type-name
keywords are consecutive (in particular `STRING < ANY`, the fact the
`isValidType` guard depends on). -/

inductive TT where
  | COLON | SEMI_COLON | DOT | COMMA | PIPE | AMP | XOR | EQ
  | L_PAREN | R_PAREN | L_SQ_BRACE | R_SQ_BRACE | L_BRACE | R_BRACE
  | PLUS | MINUS | STAR | DIV | MOD | POW | FLOOR_DIV
  | PLUS_EQ | MINUS_EQ | STAR_EQ | DIV_EQ | MOD_EQ | POW_EQ | FLOOR_DIV_EQ
  | LESS | LESS_EQ | GREATER | GREATER_EQ | EQ_EQ | BANG_EQ | IS
  | AND | OR
  | BANG | PLUS_PLUS | MINUS_MINUS
  | ARROW
  | VAR | LET | CONST | FUNC | RECORD | IF | ELIF | ELSE | WHILE | FOR
  | RETURN | TRUE | FALSE
  | NUMBER | STRING | BOOL | ANY | OBJECT | VOID
  | LITERAL_NUM | LITERAL_STR | LITERAL_HEX | LITERAL_BINARY
  | NAME
  | INDENT | DEDENT | NEWLINE | EOF
  deriving DecidableEq, Repr

/-- The numeric value of a token kind in the `tokentype.ts` enum (the members
are numbered in order of declaration, as TypeScript numbers enum members
are). Only the relative order matters to the code modelled here. -/
def TT.toNat : TT → Nat
  | .COLON => 0 | .SEMI_COLON => 1 | .DOT => 2 | .COMMA => 3 | .PIPE => 4
  | .AMP => 5 | .XOR => 6 | .EQ => 7
  | .L_PAREN => 8 | .R_PAREN => 9 | .L_SQ_BRACE => 10 | .R_SQ_BRACE => 11
  | .L_BRACE => 12 | .R_BRACE => 13
  | .PLUS => 14 | .MINUS => 15 | .STAR => 16 | .DIV => 17 | .MOD => 18
  | .POW => 19 | .FLOOR_DIV => 20
  | .PLUS_EQ => 21 | .MINUS_EQ => 22 | .STAR_EQ => 23 | .DIV_EQ => 24
  | .MOD_EQ => 25 | .POW_EQ => 26 | .FLOOR_DIV_EQ => 27
  | .LESS => 28 | .LESS_EQ => 29 | .GREATER => 30 | .GREATER_EQ => 31
  | .EQ_EQ => 32 | .BANG_EQ => 33 | .IS => 34
  | .AND => 35 | .OR => 36
  | .BANG => 37 | .PLUS_PLUS => 38 | .MINUS_MINUS => 39
  | .ARROW => 40
  | .VAR => 41 | .LET => 42 | .CONST => 43 | .FUNC => 44 | .RECORD => 45
  | .IF => 46 | .ELIF => 47 | .ELSE => 48 | .WHILE => 49 | .FOR => 50
  | .RETURN => 51 | .TRUE => 52 | .FALSE => 53
  | .NUMBER => 54 | .STRING => 55 | .BOOL => 56 | .ANY => 57 | .OBJECT => 58
  | .VOID => 59
  | .LITERAL_NUM => 60 | .LITERAL_STR => 61 | .LITERAL_HEX => 62
  | .LITERAL_BINARY => 63
  | .NAME => 64
  | .INDENT => 65 | .DEDENT => 66 | .NEWLINE => 67 | .EOF => 68

/-! ## Tokens

`src/lexer/token.ts`: a token is `{raw, pos: {start, end, line}, type, value}`.
The `value` payload is a string, a number, or `null`; a numeric payload is
modelled by the numeral's text (see the conventions above). -/

inductive TokenValue where
  | null
  | str (s : String)
  | numText (s : String)
  deriving DecidableEq, Repr

structure Token where
  type : TT
  raw : String
  value : TokenValue
  startPos : Nat
  endPos : Nat
  line : Nat
  deriving DecidableEq, Repr

/-! ## The type registry (`src/types/types.ts`, part of `generic-type.ts`,
`src/types/function-type.ts`)

A `Type` object is either one of the base-class instances (the built-in
singletons `t_any` … `t_infer`, and the fresh unresolved placeholders made by
`unknown(tag)`, all fully determined by their integer `id`), a
`FunctionType`, or a `GenericTypeInstance`.  The singletons receive ids
`0`..`6` in order of construction at module load:
`t_any = 0`, `t_object = 1`, `t_string = 2`, `t_number = 3`, `t_bool = 4`,
`t_error = 5`, `t_infer = 6`; every later `new Type(...)` (unknowns, function
types, generic types) receives a fresh id `≥ 7`. -/

mutual

/-- The types of the registry. `prim id` is a base-class `Type` instance with
the given id; `fn` is a `FunctionType`; `genInst` is a `GenericTypeInstance`
(which stores the parent generic's id and the captured type arguments). -/
inductive Typ where
  | prim (id : Nat)
  | fn (params : List PInfo) (ret : Typ)
  | genInst (parentId : Nat) (args : List Typ)

/-- A function type parameter (`ParameterTypeInfo` in `function-type.ts`).
`rest` and `hasDefault` are optional fields; `none` models the field being
absent (`undefined`). -/
inductive PInfo where
  | mk (name : String) (type : Typ) (required : Bool) (rest : Option Bool)
      (hasDefault : Option Bool)

end

/-- The declared type of a function parameter. -/
def PInfo.type : PInfo → Typ
  | .mk _ t _ _ _ => t

/-- The optional `rest` flag of a function parameter. -/
def PInfo.rest : PInfo → Option Bool
  | .mk _ _ _ r _ => r

def t_any : Typ := .prim 0
def t_object : Typ := .prim 1
def t_string : Typ := .prim 2
def t_number : Typ := .prim 3
def t_bool : Typ := .prim 4
def t_error : Typ := .prim 5
def t_infer : Typ := .prim 6

/-- `Type.isPrimitive`: the base class initialises it to `true` and
`GenericType` / `GenericTypeInstance` override it to `false`.  `FunctionType`
does not override it, so function types report `isPrimitive = true`. -/
def Typ.isPrimitive : Typ → Bool
  | .prim _ => true
  | .fn _ _ => true
  | .genInst _ _ => false

mutual

/-- JavaScript reference equality between `Type` objects (see the modelling
conventions in the header: structural equality stands in for it). -/
def beqTyp : Typ → Typ → Bool
  | .prim i, .prim j => i == j
  | .fn ps r, .fn qs s => beqParams ps qs && beqTyp r s
  | .genInst p as, .genInst q bs => p == q && beqTypList as bs
  | _, _ => false

/-- Pointwise `beqTyp` on lists of types. -/
def beqTypList : List Typ → List Typ → Bool
  | [], [] => true
  | a :: as, b :: bs => beqTyp a b && beqTypList as bs
  | _, _ => false

/-- Pointwise equality on parameter lists. -/
def beqParams : List PInfo → List PInfo → Bool
  | [], [] => true
  | .mk n t r re hd :: as, .mk n' t' r' re' hd' :: bs =>
      n == n' && beqTyp t t' && r == r' && re == re' && hd == hd' &&
        beqParams as bs
  | _, _ => false

end

/-! ### Assignability (`types.ts`, `generic-type.ts`, `function-type.ts`)

`Type.canAssign(tb)` on the base class is
`this.id == t_any.id || tb.id == this.id`; `FunctionType` and
`GenericTypeInstance` override it.  `isValidAssignment(ta, tb, type)` is the
free function of `types.ts`; `function-type.ts` calls it with only two
arguments, so in that call `type` is `undefined` — this is modelled by making
the operator argument an `Option TT` (`none` models `undefined`), under which
both the `type == TokenType.EQ` and the `type == TokenType.PLUS_EQ` tests are
false and the final line is reached. -/

mutual

/-- `Type.canAssign` with dynamic dispatch: the base-class rule for `prim`,
`FunctionType.canAssign` for `fn`, `GenericTypeInstance.canAssign` for
`genInst`.  `FunctionType.canAssign` checks, in the source's order: the
argument is a `FunctionType`; return types (`this.returnType.canAssign`);
parameter count; then per parameter the `rest` flags (`!=`, false when they
differ) and `isValidAssignment(t.params[i].type, this.params[i].type)` —
the two-argument call. `GenericTypeInstance.canAssign` requires the same
parent id and count and pairwise `isValidAssignment(·, ·, TokenType.EQ)`. -/
def canAssign : Typ → Typ → Bool
  | .prim i, tb =>
    (i == 0) || (match tb with
      | .prim j => j == i
      | _ => false)
  | .fn ps r, tb =>
    (match tb with
      | .fn qs s =>
        canAssign r s && (qs.length == ps.length) && fnParamsOk ps qs
      | _ => false)
  | .genInst p as, tb =>
    (match tb with
      | .genInst q bs =>
        (p == q) && (as.length == bs.length) && genArgsOk as bs
      | _ => false)
termination_by a b => (sizeOf a + sizeOf b, 0)
decreasing_by all_goals (simp_wf; omega)

/-- The per-parameter loop of `FunctionType.canAssign`: the first list is
`this.params`, the second `t.params` (the loop is reached only when the
lengths are equal; for unequal lengths the excess is ignored).  A step
returns false when `this.params[i].rest != t.params[i].rest` or when
`isValidAssignment(t.params[i].type, this.params[i].type)` — the
two-argument call — is false. -/
def fnParamsOk : List PInfo → List PInfo → Bool
  | [], _ => true
  | _ :: _, [] => true
  | .mk _ t _ re _ :: ps, .mk _ t' _ re' _ :: qs =>
    if re != re' then false
    else if !isValidAssignment t' t none then false
    else fnParamsOk ps qs
termination_by ps qs => (sizeOf ps + sizeOf qs, 0)
decreasing_by all_goals (simp_wf; omega)

/-- The per-argument loop of `GenericTypeInstance.canAssign` (static):
`isValidAssignment(t1.types[i], t2.types[i], TokenType.EQ)` for each i. -/
def genArgsOk : List Typ → List Typ → Bool
  | [], _ => true
  | _, [] => true
  | a :: as, b :: bs =>
    if !isValidAssignment a b (some .EQ) then false else genArgsOk as bs
termination_by as bs => (sizeOf as + sizeOf bs, 0)
decreasing_by all_goals (simp_wf; omega)

/-- `isValidAssignment(ta, tb, type)` from `types.ts`. -/
def isValidAssignment (ta tb : Typ) (type : Option TT) : Bool :=
  if type == some .EQ then
    if !ta.isPrimitive && !tb.isPrimitive then canAssignGeneric ta tb
    else if beqTyp ta t_any then true
    else beqTyp ta tb
  else if type == some .PLUS_EQ then
    (beqTyp ta t_number && beqTyp tb t_number) || beqTyp ta t_string
  else
    beqTyp ta t_any || (beqTyp ta t_number && beqTyp tb t_number)

/-- `canAssignGeneric` from `types.ts`: both operands must be
`GenericTypeInstance`s, compared with `GenericTypeInstance.areEquivalent`
(same parent id, same count, pairwise reference-equal type arguments). -/
def canAssignGeneric : Typ → Typ → Bool
  | .genInst p as, .genInst q bs =>
    (p == q) && (as.length == bs.length) && beqTypList as bs
  | _, _ => false

end

/-! ### The binary operator rules (`types.ts`)

The `+` rule reads a two-dimensional array `addTable` built at module load:
`addTable = new Array(numID + 1)` with `numID = t_number.id = 3`, so rows
`0`..`3` exist (each row itself `new Array(numID + 1)`, a length-4 array all
of whose entries are `undefined` until assigned) and rows for ids `≥ 4` are
`undefined`.  Exactly four entries are then assigned:
`addTable[3][3] = t_number`, `addTable[2][3] = t_string`,
`addTable[3][2] = t_string`, `addTable[2][2] = t_string`.  The rule is
`if (addTable[lt.id] && addTable[lt.id][rt.id]) return addTable[lt.id][rt.id];
return t_error`, so the lookup yields a type only at those four id pairs; for
every other operand pair — including `t_any` (id 0) and `t_bool` (id 4) on
either side, and every non-base-class operand (fresh id `≥ 7`) — the row or
entry is `undefined` (falsy) and the rule falls through to `t_error`. -/

/-- The defined entries of `addTable`, as a partial lookup:
`addLookup l r = some t` exactly when `addTable[l.id][r.id]` is a defined
(truthy) entry holding `t`. -/
def addLookup : Typ → Typ → Option Typ
  | .prim i, .prim j =>
    if i = 3 ∧ j = 3 then some t_number
    else if (i = 2 ∧ j = 3) ∨ (i = 3 ∧ j = 2) ∨ (i = 2 ∧ j = 2) then
      some t_string
    else none
  | _, _ => none

/-- The rule registered for `+` (`TokenType.PLUS`). -/
def plusRule (lt rt : Typ) : Typ :=
  match addLookup lt rt with
  | some t => t
  | none => t_error

/-- The rule registered for `==` and `!=`:
`if (lt != t_error && rt != t_error) return t_bool; return t_error`. -/
def equalityRule (lt rt : Typ) : Typ :=
  if !beqTyp lt t_error && !beqTyp rt t_error then t_bool else t_error

/-- `comparisonTypeCheck`, registered for `<`, `<=`, `>`, `>=`. -/
def comparisonTypeCheck (lt rt : Typ) : Typ :=
  if beqTyp lt t_number && beqTyp rt t_number then t_bool else t_error

/-- `binaryTypeCheck`, registered for `-`, `*`, `/`, `//`, `**`, `&`, `|`,
`^`. -/
def binaryTypeCheck (lt rt : Typ) : Typ :=
  if beqTyp lt t_number && beqTyp rt t_number then t_number else t_error

/-- `checkConditionalType`, registered for `or` and `and`. -/
def checkConditionalType (l r : Typ) : Typ :=
  if beqTyp l t_error || beqTyp r t_error then t_error else t_bool

/-- `binaryOp(l, op, r)`: dispatch through `mBinaryRules`; an operator with
no registered rule yields `t_error`. -/
def binaryOp (l : Typ) (op : TT) (r : Typ) : Typ :=
  match op with
  | .PLUS => plusRule l r
  | .EQ_EQ => equalityRule l r
  | .BANG_EQ => equalityRule l r
  | .LESS => comparisonTypeCheck l r
  | .LESS_EQ => comparisonTypeCheck l r
  | .GREATER => comparisonTypeCheck l r
  | .GREATER_EQ => comparisonTypeCheck l r
  | .MINUS => binaryTypeCheck l r
  | .STAR => binaryTypeCheck l r
  | .DIV => binaryTypeCheck l r
  | .FLOOR_DIV => binaryTypeCheck l r
  | .POW => binaryTypeCheck l r
  | .AMP => binaryTypeCheck l r
  | .PIPE => binaryTypeCheck l r
  | .XOR => binaryTypeCheck l r
  | .OR => checkConditionalType l r
  | .AND => checkConditionalType l r
  | _ => t_error

/-- The operators of `mBinaryRules` whose rule requires numeric operands:
the arithmetic and bitwise operators other than `+`, and the comparisons. -/
def numericOnlyOps : List TT :=
  [.MINUS, .STAR, .DIV, .FLOOR_DIV, .POW, .AMP, .PIPE, .XOR,
   .LESS, .LESS_EQ, .GREATER, .GREATER_EQ]

/-- The operators of `mBinaryRules` whose rule returns `bool` whenever
neither operand is `t_error`. -/
def boolResultOps : List TT :=
  [.EQ_EQ, .BANG_EQ, .AND, .OR]



/-! ## Theorems: the type registry and the operator tables -/

/-- `beqTyp` against a base-class instance agrees with structural equality. -/
theorem beqTyp_prim_iff (t : Typ) (i : Nat) :
    beqTyp t (.prim i) = true ↔ t = .prim i := by
  cases t <;> simp [beqTyp]

/-- C4, counterexample: the claim asserts `t.canAssign(t_any)` and
`isValidAssignment(t, t_any, EQ)` hold for every type `t`; both fail already
at `t = t_number`, since `Type.canAssign` is
`this.id == t_any.id || tb.id == this.id` and `t_number.id = 3 ≠ 0 = t_any.id`,
and the `EQ` branch of `isValidAssignment` ends in `ta == tb`. -/
theorem canAssign_number_any_counterexample :
    canAssign t_number t_any = false ∧
    isValidAssignment t_number t_any (some .EQ) = false := by
  constructor
  · simp [canAssign, t_number, t_any]
  · simp [isValidAssignment, Typ.isPrimitive, beqTyp, t_number, t_any]

/-- C4 (amended): `t_any` accepts every type, but `t_any` is **not** accepted
everywhere: a type `t` accepts `t_any` (by `canAssign` or by
`isValidAssignment` with `EQ`) exactly when `t` is `t_any` itself. -/
theorem any_assignability (t : Typ) :
    canAssign t_any t = true ∧
    (canAssign t t_any = true ↔ t = t_any) ∧
    (isValidAssignment t t_any (some .EQ) = true ↔ t = t_any) := by
  refine ⟨?_, ?_, ?_⟩
  · cases t <;> simp [canAssign, t_any]
  · cases t <;> simp [canAssign, t_any] <;> omega
  · cases t <;>
      simp [isValidAssignment, Typ.isPrimitive, beqTyp, t_any]

/-- C3, counterexample: the claim asserts every registered binary operator
maps operand pairs containing `t_any` to its default result type, never
`t_error`; but `+` on `(t_any, t_number)` consults `addTable[0][3]`, which
was never assigned, so the rule returns `t_error`. -/
theorem binaryOp_any_plus_counterexample :
    binaryOp t_any .PLUS t_number = t_error := by
  simp [binaryOp, plusRule, addLookup, t_any, t_number]

/-- C3 (amended): for an operand pair with `t_any` on either side, the
equality and logical operators return their default `bool` result (unless
the other operand is `t_error`), but `+`, the other arithmetic and bitwise
operators, and the comparisons all return `t_error`, because `t_any` is
neither `t_number` nor in the `addTable`. -/
theorem addLookup_any_none (l r : Typ) (h : l = t_any ∨ r = t_any) :
    addLookup l r = none := by
  cases l <;> cases r <;> simp_all [t_any, addLookup] <;> split_ifs <;>
    simp_all <;> omega

/-- `beqTyp t_any t_number` and friends are false; packaged for reuse. -/
theorem beqTyp_any_not_number : beqTyp t_any t_number = false := by
  simp [beqTyp, t_any, t_number]

/-- C3 (amended): for an operand pair with `t_any` on either side, the
equality and logical operators return their default `bool` result (unless
the other operand is `t_error`), but `+`, the other arithmetic and bitwise
operators, and the comparisons all return `t_error`, because `t_any` is
neither `t_number` nor in the `addTable`. -/
theorem binaryOp_any_operand (l r : Typ) (h : l = t_any ∨ r = t_any) :
    binaryOp l .PLUS r = t_error ∧
    (∀ op ∈ numericOnlyOps, binaryOp l op r = t_error) ∧
    (∀ op ∈ boolResultOps,
      binaryOp l op r =
        if beqTyp l t_error || beqTyp r t_error then t_error else t_bool) := by
  refine ⟨?_, ?_, ?_⟩
  · simp [binaryOp, plusRule, addLookup_any_none l r h]
  · intro op hop
    have hnum : (beqTyp l t_number && beqTyp r t_number) = false := by
      rcases h with h | h <;> subst h <;>
        simp [beqTyp, t_any, t_number]
    fin_cases hop <;>
      simp [binaryOp, binaryTypeCheck, comparisonTypeCheck, hnum]
  · intro op hop
    fin_cases hop <;>
      cases hl : beqTyp l t_error <;> cases hr : beqTyp r t_error <;>
      simp [binaryOp, equalityRule, checkConditionalType, hl, hr]

/-- Witness for `binaryOp_any_operand`, at `l = t_any`, `r = t_number`. -/
theorem binaryOp_any_operand_witness :
    (t_any = t_any ∨ t_number = t_any) ∧
    (binaryOp t_any .PLUS t_number = t_error ∧
     (∀ op ∈ numericOnlyOps, binaryOp t_any op t_number = t_error) ∧
     (∀ op ∈ boolResultOps,
       binaryOp t_any op t_number =
         if beqTyp t_any t_error || beqTyp t_number t_error then t_error
         else t_bool)) :=
  ⟨Or.inl rfl, binaryOp_any_operand t_any t_number (Or.inl rfl)⟩

/-- The `+` rule on two base-class operands, by the ids. -/
theorem plusRule_prim (i j : Nat) :
    plusRule (.prim i) (.prim j) =
      if i = 3 ∧ j = 3 then t_number
      else if (i = 2 ∧ j = 3) ∨ (i = 3 ∧ j = 2) ∨ (i = 2 ∧ j = 2) then
        t_string
      else t_error := by
  simp only [plusRule, addLookup]
  split_ifs <;> rfl

/-- C6, counterexample: the claim says any `+` operand pair with `str` on one
side (and no error operand) yields `str`; but `str + bool` consults
`addTable[2][4]`, which is out of the row's range, so the rule returns
`t_error`. -/
theorem plus_str_bool_counterexample :
    binaryOp t_string .PLUS t_bool = t_error := by
  simp [binaryOp, t_string, t_bool, plusRule_prim]

/-- C6 (amended): `+` yields `num` exactly on `(num, num)`, yields `str`
exactly on `(str, str)`, `(str, num)` and `(num, str)`, and yields `t_error`
on every other operand pair — including pairs with `str` on one side and a
type other than `str`/`num` on the other. -/
theorem plus_rule_characterisation (l r : Typ) :
    (binaryOp l .PLUS r = t_number ↔ (l = t_number ∧ r = t_number)) ∧
    (binaryOp l .PLUS r = t_string ↔
      ((l = t_string ∧ r = t_string) ∨ (l = t_string ∧ r = t_number) ∨
       (l = t_number ∧ r = t_string))) ∧
    (¬(l = t_number ∧ r = t_number) →
      ¬((l = t_string ∧ r = t_string) ∨ (l = t_string ∧ r = t_number) ∨
        (l = t_number ∧ r = t_string)) →
      binaryOp l .PLUS r = t_error) := by
  cases l with
  | prim i =>
    cases r with
    | prim j =>
      simp only [binaryOp, plusRule_prim, t_number, t_string, t_error]
      split_ifs <;> simp_all <;> omega
    | fn qs s =>
      simp [binaryOp, plusRule, addLookup, t_number, t_string, t_error]
    | genInst q bs =>
      simp [binaryOp, plusRule, addLookup, t_number, t_string, t_error]
  | fn ps rr =>
    cases r <;>
      simp [binaryOp, plusRule, addLookup, t_number, t_string, t_error]
  | genInst p as =>
    cases r <;>
      simp [binaryOp, plusRule, addLookup, t_number, t_string, t_error]

/-! ### Function-type assignability (C5) -/

/-- The pairwise parameter condition stated by the spec for function-type
assignability (C5): each positional pair has the same rest flag and `G`'s
parameter type is assignable to `F`'s under the strict-equivalence (`EQ`)
rule of `isValidAssignment`; stated over lists of equal length. -/
def specFnParamsOk : List PInfo → List PInfo → Bool
  | [], [] => true
  | .mk _ t _ re _ :: ps, .mk _ t' _ re' _ :: qs =>
    (re == re') && isValidAssignment t' t (some .EQ) && specFnParamsOk ps qs
  | _, _ => false

/-- The function-type assignability relation the spec's C5 sentence claims
`FunctionType.canAssign` implements: parameter arity matches, rest flags
match pairwise, parameters are pairwise assignable under strict equivalence,
and the return types are assignable. -/
def specFnCanAssign : Typ → Typ → Bool
  | .fn ps r, .fn qs s =>
    (qs.length == ps.length) && specFnParamsOk ps qs && canAssign r s
  | _, _ => false

/-- A function type `(x: str) -> any`. -/
def fnStrToAny : Typ :=
  .fn [.mk ("x") t_string true (some false) (some false)] t_any

/-- C5, counterexample: on `F = G = (x: str) -> any` the relation claimed by
the spec holds, but `FunctionType.canAssign` returns false: it calls
`isValidAssignment` with only two arguments, so the parameter check is the
operator-less fallback `ta == t_any || (ta == t_number && tb == t_number)`,
which fails on `str` parameters. -/
theorem fn_canAssign_counterexample :
    canAssign fnStrToAny fnStrToAny = false ∧
    specFnCanAssign fnStrToAny fnStrToAny = true := by
  constructor
  · simp [canAssign, fnStrToAny, fnParamsOk, isValidAssignment, beqTyp,
      t_any, t_string, t_number]
  · simp [specFnCanAssign, fnStrToAny, specFnParamsOk, isValidAssignment,
      Typ.isPrimitive, beqTyp, canAssign, t_any, t_string]

/-- The per-pair condition `FunctionType.canAssign` actually enforces on one
positional pair of parameters (`p` from `this.params`, `q` from `t.params`):
equal rest flags, and the operator-less `isValidAssignment` fallback on the
types. -/
def pairOk (p q : PInfo) : Prop :=
  p.rest = q.rest ∧ isValidAssignment q.type p.type none = true

/-- The parameter loop of `FunctionType.canAssign`, characterised pairwise
(on lists of equal length). -/
theorem fnParamsOk_iff_forall₂ (ps : List PInfo) :
    ∀ qs : List PInfo, ps.length = qs.length →
      (fnParamsOk ps qs = true ↔ List.Forall₂ pairOk ps qs) := by
  induction ps with
  | nil =>
    intro qs h
    cases qs with
    | nil => simp [fnParamsOk]
    | cons q qs' => simp at h
  | cons p ps' ih =>
    intro qs h
    cases qs with
    | nil => simp at h
    | cons q qs' =>
      cases p with
      | mk n t rq re hd =>
        cases q with
        | mk n' t' rq' re' hd' =>
          rw [List.forall₂_cons]
          simp only [List.length_cons, Nat.succ.injEq] at h
          rw [← ih qs' h]
          simp only [fnParamsOk, pairOk, PInfo.rest, PInfo.type]
          by_cases hre : re = re'
          · subst hre
            simp only [bne_self_eq_false, if_false, Bool.false_eq_true]
            by_cases hv : isValidAssignment t' t none = true
            · simp [hv]
            · simp [hv, Bool.eq_false_iff.mpr hv]
          · have hb : (re != re') = true := by simp [bne, hre]
            simp [hb, hre]

/-- C5 (amended): `F.canAssign(G)` for function types holds iff the
parameter lists have equal length, the return type of `F` accepts that of
`G`, and each positional pair of parameters has the same rest flag and
passes the *operator-less* `isValidAssignment` fallback actually invoked by
the implementation (`G`'s parameter is `t_any`, or both parameters are
`num`) — not the strict-equivalence rule the spec describes. -/
theorem fn_canAssign_iff (ps qs : List PInfo) (r s : Typ) :
    canAssign (.fn ps r) (.fn qs s) = true ↔
      (canAssign r s = true ∧ qs.length = ps.length ∧
       List.Forall₂ pairOk ps qs) := by
  have heq : canAssign (.fn ps r) (.fn qs s) =
      (canAssign r s && (qs.length == ps.length) && fnParamsOk ps qs) := by
    simp [canAssign]
  rw [heq]
  constructor
  · intro hc
    simp only [Bool.and_eq_true, beq_iff_eq] at hc
    obtain ⟨⟨h1, h2⟩, h3⟩ := hc
    exact ⟨h1, h2, (fnParamsOk_iff_forall₂ ps qs h2.symm).mp h3⟩
  · intro ⟨h1, h2, h3⟩
    simp only [Bool.and_eq_true, beq_iff_eq]
    exact ⟨⟨h1, h2⟩, (fnParamsOk_iff_forall₂ ps qs h2.symm).mpr h3⟩

/-! ## The lexer (`src/lexer/lexer.ts`)

State and helpers follow the `Lexer` class field for field: `sourceCode`
(a list of characters), `current`, `start`, `line`, `tokens`, `hasError`,
plus the `brackets` stack and the *never-used* indentation fields `levels`
and `currentLevel` (the constructor initialises `levels` to `[]` and nothing
ever reads or writes them).  `peek()` returns the NUL character at or past
the end of input, as the source does; `error(message)` records the message
and sets `hasError` but does not stop the scan.

The character classification helpers of `src/lexer/helpers.ts` are not part
of the sources.  Modelled from the spec ("Identifier start = letter or `_`;
continuation adds digits"): `isAlpha` accepts letters and underscore,
`isValidIdStart = isAlpha`, `isValidIdChar` adds decimal digits.  The
keyword table of `src/lexer/keywords.ts` is likewise modelled from the
spec's keyword list. -/

def nulChar : Char := Char.ofNat 0

/-- `s[i]`, with the out-of-range reads of `peek`/`peekNext` yielding NUL. -/
def charAt (s : List Char) (i : Nat) : Char := s.getD i nulChar

/-- `this.sourceCode.substring(a, b)`. -/
def substr (s : List Char) (a b : Nat) : String :=
  String.mk ((s.drop a).take (b - a))

/-- Modelled from the spec: `util.isAlpha` — letters and underscore. -/
def isAlphaCh (c : Char) : Bool := c.isAlpha || c == '_'

/-- Modelled from the spec: `util.isDigit`. -/
def isDigitCh (c : Char) : Bool := c.isDigit

/-- Modelled from the spec: `util.isValidIdStart`. -/
def isValidIdStart (c : Char) : Bool := isAlphaCh c

/-- Modelled from the spec: `util.isValidIdChar`. -/
def isValidIdChar (c : Char) : Bool := isAlphaCh c || isDigitCh c

/-- Modelled from the spec: `util.isHexDigit`. -/
def isHexDigitCh (c : Char) : Bool :=
  c.isDigit || (('a' ≤ c && c ≤ 'f') || ('A' ≤ c && c ≤ 'F'))

/-- Modelled from the spec: `util.isBinDigit`. -/
def isBinDigitCh (c : Char) : Bool := c == '0' || c == '1'

/-- Modelled from the spec: the keyword table of `keywords.ts`, from the
spec's keyword and primitive-type-name lists. -/
def keywordLookup : String → Option TT
  | "var" => some .VAR
  | "let" => some .LET
  | "const" => some .CONST
  | "func" => some .FUNC
  | "record" => some .RECORD
  | "if" => some .IF
  | "elif" => some .ELIF
  | "else" => some .ELSE
  | "while" => some .WHILE
  | "for" => some .FOR
  | "return" => some .RETURN
  | "true" => some .TRUE
  | "false" => some .FALSE
  | "and" => some .AND
  | "or" => some .OR
  | "is" => some .IS
  | "num" => some .NUMBER
  | "str" => some .STRING
  | "bool" => some .BOOL
  | "any" => some .ANY
  | "object" => some .OBJECT
  | "void" => some .VOID
  | _ => none

structure LexState where
  source : List Char
  current : Nat
  start : Nat
  line : Nat
  tokens : List Token
  hasError : Bool
  errors : List String
  brackets : List Char
  levels : List Nat
  currentLevel : Nat
  deriving Repr

/-- The `Lexer` constructor. -/
def initLex (src : List Char) : LexState :=
  { source := src, current := 0, start := 0, line := 1, tokens := [],
    hasError := false, errors := [], brackets := [], levels := [],
    currentLevel := 0 }

/-- `this.eof()`. -/
def LexState.eofL (st : LexState) : Bool := st.source.length ≤ st.current

/-- `this.peek()` (NUL at or past the end). -/
def LexState.peekc (st : LexState) : Char := charAt st.source st.current

/-- `this.peekNext()`. -/
def LexState.peekNext (st : LexState) : Char :=
  charAt st.source (st.current + 1)

/-- The `this.current++` part of `this.next()`. -/
def LexState.adv (st : LexState) : LexState :=
  { st with current := st.current + 1 }

/-- `this.error(message)`: record the message and set `hasError`. -/
def LexState.err (st : LexState) (msg : String) : LexState :=
  { st with hasError := true, errors := st.errors ++ [msg] }

/-- `this.addToken(type, value)`; the source stores `value || null`, a
payload is only ever passed where the claims never read it (see the header
conventions on numeric payloads). -/
def LexState.addToken (st : LexState) (type : TT) (value : TokenValue) :
    LexState :=
  { st with
    tokens := st.tokens ++
      [{ type := type, raw := substr st.source st.start st.current,
         value := value, startPos := st.start, endPos := st.current,
         line := st.line }] }

/-- `this.match(char)`: consume and report success iff the next character is
`char`. -/
def LexState.tryMatch (st : LexState) (c : Char) : Bool × LexState :=
  if st.peekc == c then (true, st.adv) else (false, st)

def msgUnterminatedString : String := "Unterminated string literal"
def msgExpectedExponent : String := "Expected number after exponent."
def msgIdAfterNumber : String :=
  "Identifier starts immediately after number literal."
def msgIdAfterNumberNoDot : String :=
  "Identifier starts immediately after number literal"
def msgUnexpectedToken : String := "Unexpected token "

/-- The body loop of `lexString`:
`while (!this.eof() && !this.check(quote)) { if (this.check('\n')) this.line++; this.next(); }` -/
def strBody (fuel : Nat) (quote : Char) (st : LexState) : Option LexState :=
  match fuel with
  | 0 => none
  | f + 1 =>
    if !st.eofL && !(st.peekc == quote) then
      strBody f quote
        ((if st.peekc == '\n' then { st with line := st.line + 1 } else st).adv)
    else some st

/-- The tail of `lexString`: the unterminated-string diagnostic at the end
of input, `this.next()` past the closing quote, and the `LITERAL_STR` token
whose payload is `substring(start + 1, current - 1)`. -/
def lexStringFinish (st0 : LexState) : LexState :=
  let st := if st0.eofL then st0.err msgUnterminatedString else st0
  let st := st.adv
  st.addToken .LITERAL_STR
    (.str (substr st.source (st.start + 1) (st.current - 1)))

/-- `lexString(quote)`: scan to the closing quote (or the end of input, with
a diagnostic), consume the closing quote, and emit the `LITERAL_STR`
token. -/
def lexString (fuel : Nat) (quote : Char) (st : LexState) :
    Option LexState :=
  match strBody fuel quote st with
  | none => none
  | some st1 => some (lexStringFinish st1)

/-- `while (!this.eof() && util.isDigit(this.peek())) this.next();` -/
def digitsLoopG (fuel : Nat) (st : LexState) : Option LexState :=
  match fuel with
  | 0 => none
  | f + 1 =>
    if !st.eofL && isDigitCh st.peekc then digitsLoopG f st.adv else some st

/-- `while (util.isDigit(this.peek())) this.next();` (the exponent loop; no
`eof` guard, but `peek` past the end is NUL, which is not a digit). -/
def digitsLoopP (fuel : Nat) (st : LexState) : Option LexState :=
  match fuel with
  | 0 => none
  | f + 1 =>
    if isDigitCh st.peekc then digitsLoopP f st.adv else some st

/-- The tail of `lexNumber`: the adjacent-identifier check and the token. -/
def lexNumberFinish (st : LexState) : LexState :=
  let st := if !st.eofL && isAlphaCh st.peekc then st.err msgIdAfterNumber
    else st
  st.addToken .LITERAL_NUM (.numText (substr st.source st.start st.current))

/-- The part of `lexNumber` after the exponent's optional sign: a digit is
required (else an early `return this.error(...)` that emits **no** token),
then the exponent digits and the common tail. -/
def lexNumberExpDigits (fuel : Nat) (st : LexState) : Option LexState :=
  if !isDigitCh st.peekc then some (st.err msgExpectedExponent)
  else
    match digitsLoopP fuel st with
    | none => none
    | some st2 => some (lexNumberFinish st2)

/-- The exponent part of `lexNumber` (the `e`/`E` is already consumed):
consume an optional sign, then the digits. -/
def lexNumberExp (fuel : Nat) (st : LexState) : Option LexState :=
  lexNumberExpDigits fuel
    (if st.peekc == '+' || st.peekc == '-' then st.adv else st)

/-- `lexNumber()` (the whole-number part's first digit is already consumed):
whole part, fraction, exponent, and the common tail `lexNumberFinish`. -/
def lexNumber (fuel : Nat) (st : LexState) : Option LexState :=
  match digitsLoopG fuel st with
  | none => none
  | some st1 =>
    match
      (if st1.peekc == '.' && isDigitCh st1.peekNext then
        digitsLoopG fuel st1.adv
      else some st1) with
    | none => none
    | some st2 =>
      if st2.peekc == 'e' || st2.peekc == 'E' then
        lexNumberExp fuel st2.adv
      else some (lexNumberFinish st2)

/-- The digit loop of `lexHexNumber` (collecting the digits into the
literal's textual payload). -/
def hexLoop (fuel : Nat) (st : LexState) (acc : String) :
    Option (LexState × String) :=
  match fuel with
  | 0 => none
  | f + 1 =>
    if !st.eofL && isHexDigitCh st.peekc then
      hexLoop f st.adv (acc.push st.peekc)
    else some (st, acc)

/-- `lexHexNumber()` (`0x` already consumed). -/
def lexHexNumber (fuel : Nat) (st : LexState) : Option LexState :=
  match
    hexLoop fuel
      (if !isHexDigitCh st.peekc then
        st.err (msgUnexpectedToken ++ String.singleton st.peekc)
      else st) "" with
  | none => none
  | some (st1, ds) =>
    some (((if isValidIdChar st1.peekc then st1.err msgIdAfterNumberNoDot
      else st1)).addToken .LITERAL_HEX (.str ("0x" ++ ds)))

/-- The digit loop of `lexBinaryNumber`. -/
def binLoop (fuel : Nat) (st : LexState) (acc : String) :
    Option (LexState × String) :=
  match fuel with
  | 0 => none
  | f + 1 =>
    if !st.eofL && isBinDigitCh st.peekc then
      binLoop f st.adv (acc.push st.peekc)
    else some (st, acc)

/-- `lexBinaryNumber()` (`0b` already consumed). -/
def lexBinaryNumber (fuel : Nat) (st : LexState) : Option LexState :=
  match
    binLoop fuel
      (if !isBinDigitCh st.peekc then
        st.err (msgUnexpectedToken ++ String.singleton st.peekc)
      else st) "" with
  | none => none
  | some (st1, ds) =>
    some (((if isValidIdChar st1.peekc then st1.err msgIdAfterNumberNoDot
      else st1)).addToken .LITERAL_BINARY (.str ("0b" ++ ds)))

/-- The continuation loop of `lexIdentifier`. -/
def identLoop (fuel : Nat) (st : LexState) (acc : String) :
    Option (LexState × String) :=
  match fuel with
  | 0 => none
  | f + 1 =>
    if !st.eofL && isValidIdChar st.peekc then
      identLoop f st.adv (acc.push st.peekc)
    else some (st, acc)

/-- `lexIdentifier(firstChar)`: keywords take precedence over `NAME`. -/
def lexIdentifier (fuel : Nat) (c : Char) (st : LexState) :
    Option LexState :=
  match identLoop fuel st (String.singleton c) with
  | none => none
  | some (st1, id) =>
    match keywordLookup id with
    | some kw => some (st1.addToken kw .null)
    | none => some (st1.addToken .NAME (.str id))

/-- The comment loop: `while (!this.check('\n')) this.next();` — note there
is **no** `eof` guard, and `peek()` past the end of input returns NUL, never
`'\n'`; on a `#` comment not terminated by a newline this loop never exits
(the fuel runs out for every fuel). -/
def commentLoop (fuel : Nat) (st : LexState) : Option LexState :=
  match fuel with
  | 0 => none
  | f + 1 =>
    if st.peekc == '\n' then some st else commentLoop f st.adv

/-- `scanToken()`: consume one character (`this.next()`; the method is only
called when `!this.eof()`, so the character is `source[current]`) and
dispatch on it.  `(` and `[` push onto the bracket stack (nothing ever pops
it); both `{` and `}` emit `L_BRACE` (the close-brace arm of the source's
switch also says `TokenType.L_BRACE`); characters that fall through every
case (spaces, tabs, unknown symbols) are skipped without any action. -/
def scanToken (fuel : Nat) (st : LexState) : Option LexState :=
  let c := st.peekc
  let st := st.adv
  match c with
  | ':' => some (st.addToken .COLON .null)
  | ';' => some (st.addToken .SEMI_COLON .null)
  | '.' => some (st.addToken .DOT .null)
  | ',' => some (st.addToken .COMMA .null)
  | '|' => some (st.addToken .PIPE .null)
  | '&' => some (st.addToken .AMP .null)
  | '^' => some (st.addToken .XOR .null)
  | '=' => some (st.addToken .EQ .null)
  | '(' =>
    let st := st.addToken .L_PAREN .null
    some { st with brackets := st.brackets ++ ['('] }
  | ')' => some (st.addToken .R_PAREN .null)
  | '[' =>
    let st := st.addToken .L_SQ_BRACE .null
    some { st with brackets := st.brackets ++ ['['] }
  | ']' => some (st.addToken .R_SQ_BRACE .null)
  | '{' => some (st.addToken .L_BRACE .null)
  | '}' => some (st.addToken .L_BRACE .null)
  | '+' =>
    match st.tryMatch '=' with
    | (true, st1) => some (st1.addToken .PLUS_EQ .null)
    | (false, st1) =>
      match st1.tryMatch '+' with
      | (true, st2) => some (st2.addToken .PLUS_PLUS .null)
      | (false, st2) => some (st2.addToken .PLUS .null)
  | '-' =>
    match st.tryMatch '=' with
    | (true, st1) => some (st1.addToken .MINUS_EQ .null)
    | (false, st1) =>
      match st1.tryMatch '-' with
      | (true, st2) => some (st2.addToken .MINUS_MINUS .null)
      | (false, st2) =>
        match st2.tryMatch '>' with
        | (true, st3) => some (st3.addToken .ARROW .null)
        | (false, st3) => some (st3.addToken .MINUS .null)
  | '*' =>
    match st.tryMatch '=' with
    | (true, st1) => some (st1.addToken .STAR_EQ .null)
    | (false, st1) =>
      match st1.tryMatch '*' with
      | (true, st2) => some (st2.addToken .POW .null)
      | (false, st2) => some (st2.addToken .STAR .null)
  | '/' =>
    match st.tryMatch '=' with
    | (true, st1) => some (st1.addToken .DIV_EQ .null)
    | (false, st1) =>
      match st1.tryMatch '/' with
      | (true, st2) => some (st2.addToken .FLOOR_DIV .null)
      | (false, st2) => some (st2.addToken .DIV .null)
  | '>' =>
    match st.tryMatch '=' with
    | (true, st1) => some (st1.addToken .GREATER_EQ .null)
    | (false, st1) => some (st1.addToken .GREATER .null)
  | '<' =>
    match st.tryMatch '=' with
    | (true, st1) => some (st1.addToken .LESS_EQ .null)
    | (false, st1) => some (st1.addToken .LESS .null)
  | '"' => lexString fuel c st
  | '\'' => lexString fuel c st
  | '#' => commentLoop fuel st
  | '\n' => some (({ st with line := st.line + 1 }).addToken .NEWLINE .null)
  | _ =>
    if isValidIdStart c then lexIdentifier fuel c st
    else if isDigitCh c then
      if c == '0' then
        match st.tryMatch 'b' with
        | (true, st1) => lexBinaryNumber fuel st1
        | (false, st1) =>
          match st1.tryMatch 'x' with
          | (true, st2) => lexHexNumber fuel st2
          | (false, st2) => lexNumber fuel st2
      else lexNumber fuel st
    else some st

/-- The scan loop of `lex()`:
`while (!this.eof()) { this.start = this.current; this.scanToken(); }`. -/
def lexLoop (fuel : Nat) (st : LexState) : Option LexState :=
  match fuel with
  | 0 => none
  | f + 1 =>
    if st.eofL then some st
    else
      match scanToken f { st with start := st.current } with
      | none => none
      | some st1 => lexLoop f st1

/-- `lex()`: the scan loop, then `addToken(TokenType.EOF)` — and nothing
else: no `DEDENT` flushing and no final `NEWLINE`.  (The indent stack
`levels` is initialised to `[]` in the constructor and never touched.) -/
def lexRun (fuel : Nat) (st : LexState) : Option LexState :=
  match lexLoop fuel st with
  | none => none
  | some st1 => some (st1.addToken .EOF .null)

/-- The token list `lex()` returns on the given source text. -/
def lexTokens (fuel : Nat) (src : List Char) : Option (List Token) :=
  (lexRun fuel (initLex src)).map LexState.tokens

/-! ## Theorems: the lexer -/

/-- A token that is not a layout token synthesised by dedenting. -/
def noLayout (t : Token) : Prop :=
  t.type ≠ TT.DEDENT ∧ t.type ≠ TT.INDENT

/-- Between two lexer states, tokens were only appended, and every appended
token is a non-layout token. -/
def tokensMono (st st' : LexState) : Prop :=
  ∀ t ∈ st'.tokens, t ∈ st.tokens ∨ noLayout t

theorem tokensMono_of_eq {st st' : LexState} (h : st'.tokens = st.tokens) :
    tokensMono st st' := fun t ht => Or.inl (h ▸ ht)

theorem tokensMono_trans {a b c : LexState} (h1 : tokensMono a b)
    (h2 : tokensMono b c) : tokensMono a c := by
  intro t ht
  rcases h2 t ht with h | h
  · exact h1 t h
  · exact Or.inr h

theorem addToken_mono (st : LexState) (k : TT) (v : TokenValue)
    (h1 : k ≠ TT.DEDENT) (h2 : k ≠ TT.INDENT) :
    tokensMono st (st.addToken k v) := by
  intro t ht
  simp only [LexState.addToken, List.mem_append, List.mem_singleton] at ht
  rcases ht with ht | ht
  · exact Or.inl ht
  · subst ht; exact Or.inr ⟨h1, h2⟩

theorem tokensMono_addToken_of_eq {st st1 : LexState}
    (h : st1.tokens = st.tokens) (k : TT) (v : TokenValue)
    (h1 : k ≠ TT.DEDENT) (h2 : k ≠ TT.INDENT) :
    tokensMono st (st1.addToken k v) :=
  tokensMono_trans (tokensMono_of_eq h) (addToken_mono st1 k v h1 h2)

theorem strBody_tokens (fuel : Nat) :
    ∀ (quote : Char) (st st' : LexState), strBody fuel quote st = some st' →
      st'.tokens = st.tokens := by
  induction fuel with
  | zero => intro q st st' h; simp [strBody] at h
  | succ f ih =>
    intro q st st' h
    rw [strBody] at h
    split at h
    · split at h <;> exact (ih _ _ _ h).trans rfl
    · simp only [Option.some.injEq] at h; subst h; rfl

theorem digitsLoopG_tokens (fuel : Nat) :
    ∀ (st st' : LexState), digitsLoopG fuel st = some st' →
      st'.tokens = st.tokens := by
  induction fuel with
  | zero => intro st st' h; simp [digitsLoopG] at h
  | succ f ih =>
    intro st st' h
    rw [digitsLoopG] at h
    split at h
    · exact (ih _ _ h).trans rfl
    · simp only [Option.some.injEq] at h; subst h; rfl

theorem digitsLoopP_tokens (fuel : Nat) :
    ∀ (st st' : LexState), digitsLoopP fuel st = some st' →
      st'.tokens = st.tokens := by
  induction fuel with
  | zero => intro st st' h; simp [digitsLoopP] at h
  | succ f ih =>
    intro st st' h
    rw [digitsLoopP] at h
    split at h
    · exact (ih _ _ h).trans rfl
    · simp only [Option.some.injEq] at h; subst h; rfl

theorem commentLoop_tokens (fuel : Nat) :
    ∀ (st st' : LexState), commentLoop fuel st = some st' →
      st'.tokens = st.tokens := by
  induction fuel with
  | zero => intro st st' h; simp [commentLoop] at h
  | succ f ih =>
    intro st st' h
    rw [commentLoop] at h
    split at h
    · simp only [Option.some.injEq] at h; subst h; rfl
    · exact (ih _ _ h).trans rfl

theorem hexLoop_tokens (fuel : Nat) :
    ∀ (st : LexState) (acc : String) (st' : LexState) (acc' : String),
      hexLoop fuel st acc = some (st', acc') → st'.tokens = st.tokens := by
  induction fuel with
  | zero => intro st acc st' acc' h; simp [hexLoop] at h
  | succ f ih =>
    intro st acc st' acc' h
    rw [hexLoop] at h
    split at h
    · exact (ih _ _ _ _ h).trans rfl
    · simp only [Option.some.injEq, Prod.mk.injEq] at h
      obtain ⟨h1, h2⟩ := h; subst h1; rfl

theorem binLoop_tokens (fuel : Nat) :
    ∀ (st : LexState) (acc : String) (st' : LexState) (acc' : String),
      binLoop fuel st acc = some (st', acc') → st'.tokens = st.tokens := by
  induction fuel with
  | zero => intro st acc st' acc' h; simp [binLoop] at h
  | succ f ih =>
    intro st acc st' acc' h
    rw [binLoop] at h
    split at h
    · exact (ih _ _ _ _ h).trans rfl
    · simp only [Option.some.injEq, Prod.mk.injEq] at h
      obtain ⟨h1, h2⟩ := h; subst h1; rfl

theorem identLoop_tokens (fuel : Nat) :
    ∀ (st : LexState) (acc : String) (st' : LexState) (acc' : String),
      identLoop fuel st acc = some (st', acc') → st'.tokens = st.tokens := by
  induction fuel with
  | zero => intro st acc st' acc' h; simp [identLoop] at h
  | succ f ih =>
    intro st acc st' acc' h
    rw [identLoop] at h
    split at h
    · exact (ih _ _ _ _ h).trans rfl
    · simp only [Option.some.injEq, Prod.mk.injEq] at h
      obtain ⟨h1, h2⟩ := h; subst h1; rfl

theorem lexStringFinish_mono {st st1 : LexState}
    (he : st1.tokens = st.tokens) : tokensMono st (lexStringFinish st1) := by
  unfold lexStringFinish
  refine tokensMono_addToken_of_eq ?_ _ _ (by decide) (by decide)
  split <;> simpa [LexState.adv, LexState.err] using he

theorem lexString_mono (fuel : Nat) (quote : Char) (st st' : LexState)
    (h : lexString fuel quote st = some st') : tokensMono st st' := by
  unfold lexString at h
  cases hb : strBody fuel quote st with
  | none => rw [hb] at h; simp at h
  | some st1 =>
    rw [hb] at h
    simp only [Option.some.injEq] at h
    subst h
    exact lexStringFinish_mono (strBody_tokens fuel quote st st1 hb)

theorem lexNumberFinish_mono {st st1 : LexState}
    (he : st1.tokens = st.tokens) : tokensMono st (lexNumberFinish st1) := by
  unfold lexNumberFinish
  refine tokensMono_addToken_of_eq ?_ _ _ (by decide) (by decide)
  split <;> simp [LexState.err, he]

theorem lexNumberExpDigits_mono (fuel : Nat) {st st1 st' : LexState}
    (he : st1.tokens = st.tokens)
    (h : lexNumberExpDigits fuel st1 = some st') : tokensMono st st' := by
  unfold lexNumberExpDigits at h
  split at h
  · simp only [Option.some.injEq] at h
    subst h
    exact tokensMono_of_eq (by simp [LexState.err, he])
  · cases h4 : digitsLoopP fuel st1 with
    | none => rw [h4] at h; simp at h
    | some st4 =>
      rw [h4] at h
      simp only [Option.some.injEq] at h
      subst h
      exact lexNumberFinish_mono ((digitsLoopP_tokens fuel _ st4 h4).trans he)

theorem lexNumberExp_mono (fuel : Nat) {st st1 st' : LexState}
    (he : st1.tokens = st.tokens)
    (h : lexNumberExp fuel st1 = some st') : tokensMono st st' := by
  unfold lexNumberExp at h
  refine lexNumberExpDigits_mono fuel ?_ h
  split <;> simp [LexState.adv, he]

theorem lexNumber_mono (fuel : Nat) (st st' : LexState)
    (h : lexNumber fuel st = some st') : tokensMono st st' := by
  unfold lexNumber at h
  cases h1 : digitsLoopG fuel st with
  | none => rw [h1] at h; simp at h
  | some st1 =>
    rw [h1] at h
    dsimp only at h
    have e1 := digitsLoopG_tokens fuel st st1 h1
    cases h2 : (if st1.peekc == '.' && isDigitCh st1.peekNext then
        digitsLoopG fuel st1.adv
      else some st1) with
    | none => rw [h2] at h; exact absurd h (by simp)
    | some st2 =>
      rw [h2] at h
      dsimp only at h
      have e2 : st2.tokens = st.tokens := by
        split at h2
        · exact ((digitsLoopG_tokens fuel _ st2 h2).trans rfl).trans e1
        · simp only [Option.some.injEq] at h2; subst h2; exact e1
      split at h
      · exact lexNumberExp_mono fuel (by simpa [LexState.adv] using e2) h
      · simp only [Option.some.injEq] at h
        subst h
        exact lexNumberFinish_mono e2

theorem keywordLookup_noLayout (s : String) (k : TT)
    (h : keywordLookup s = some k) : k ≠ TT.DEDENT ∧ k ≠ TT.INDENT := by
  unfold keywordLookup at h
  split at h <;>
    first
    | exact Option.noConfusion h
    | (simp only [Option.some.injEq] at h; subst h;
       exact ⟨by decide, by decide⟩)

theorem lexHexNumber_mono (fuel : Nat) (st st' : LexState)
    (h : lexHexNumber fuel st = some st') : tokensMono st st' := by
  unfold lexHexNumber at h
  cases hl : hexLoop fuel
      (if !isHexDigitCh st.peekc then
        st.err (msgUnexpectedToken ++ String.singleton st.peekc)
      else st) "" with
  | none => rw [hl] at h; exact absurd h (by simp)
  | some p =>
    obtain ⟨st1, ds⟩ := p
    rw [hl] at h
    dsimp only at h
    simp only [Option.some.injEq] at h
    subst h
    have e1 := hexLoop_tokens fuel _ _ _ _ hl
    refine tokensMono_addToken_of_eq ?_ _ _ (by decide) (by decide)
    have e0 : st1.tokens = st.tokens := by
      rw [e1]; split <;> simp [LexState.err]
    split <;> simp [LexState.err, e0]

theorem lexBinaryNumber_mono (fuel : Nat) (st st' : LexState)
    (h : lexBinaryNumber fuel st = some st') : tokensMono st st' := by
  unfold lexBinaryNumber at h
  cases hl : binLoop fuel
      (if !isBinDigitCh st.peekc then
        st.err (msgUnexpectedToken ++ String.singleton st.peekc)
      else st) "" with
  | none => rw [hl] at h; exact absurd h (by simp)
  | some p =>
    obtain ⟨st1, ds⟩ := p
    rw [hl] at h
    dsimp only at h
    simp only [Option.some.injEq] at h
    subst h
    have e1 := binLoop_tokens fuel _ _ _ _ hl
    refine tokensMono_addToken_of_eq ?_ _ _ (by decide) (by decide)
    have e0 : st1.tokens = st.tokens := by
      rw [e1]; split <;> simp [LexState.err]
    split <;> simp [LexState.err, e0]

theorem lexIdentifier_mono (fuel : Nat) (c : Char) (st st' : LexState)
    (h : lexIdentifier fuel c st = some st') : tokensMono st st' := by
  unfold lexIdentifier at h
  cases hl : identLoop fuel st (String.singleton c) with
  | none => rw [hl] at h; exact absurd h (by simp)
  | some p =>
    obtain ⟨st1, id⟩ := p
    rw [hl] at h
    dsimp only at h
    have e1 := identLoop_tokens fuel _ _ _ _ hl
    cases hk : keywordLookup id with
    | some kw =>
      rw [hk] at h
      simp only [Option.some.injEq] at h
      subst h
      obtain ⟨hk1, hk2⟩ := keywordLookup_noLayout id kw hk
      exact tokensMono_addToken_of_eq e1 _ _ hk1 hk2
    | none =>
      rw [hk] at h
      simp only [Option.some.injEq] at h
      subst h
      exact tokensMono_addToken_of_eq e1 _ _ (by decide) (by decide)

theorem commentLoop_mono (fuel : Nat) (st st' : LexState)
    (h : commentLoop fuel st = some st') : tokensMono st st' :=
  tokensMono_of_eq (commentLoop_tokens fuel st st' h)

theorem scanToken_mono (fuel : Nat) (st st' : LexState)
    (h : scanToken fuel st = some st') : tokensMono st st' := by
  unfold scanToken at h
  dsimp only at h
  split at h
  all_goals
    try simp only [LexState.tryMatch] at h
  all_goals
    repeat'
      first
      | dsimp only at h
      | split at h
      | (rename_i heq; split at heq <;> simp at heq <;> subst heq)
      | (rename_i heq a; split at heq <;> simp at heq <;> subst heq)
      | (rename_i heq a b; split at heq <;> simp at heq <;> subst heq)
      | (rename_i heq a b c; split at heq <;> simp at heq <;> subst heq)
  all_goals
    first
    | exact Option.noConfusion h
    | (simp only [Option.some.injEq] at h; subst h;
       exact tokensMono_addToken_of_eq rfl _ _ (by decide) (by decide))
    | (simp only [Option.some.injEq] at h; subst h;
       exact tokensMono_trans
         (tokensMono_addToken_of_eq rfl _ _ (by decide) (by decide))
         (tokensMono_of_eq rfl))
    | (have hm := lexString_mono _ _ _ _ h
       exact tokensMono_trans (tokensMono_of_eq rfl) hm)
    | (have hm := commentLoop_mono _ _ _ h
       exact tokensMono_trans (tokensMono_of_eq rfl) hm)
    | (have hm := lexIdentifier_mono _ _ _ _ h
       exact tokensMono_trans (tokensMono_of_eq rfl) hm)
    | (have hm := lexBinaryNumber_mono _ _ _ h
       exact tokensMono_trans (tokensMono_of_eq rfl) hm)
    | (have hm := lexHexNumber_mono _ _ _ h
       exact tokensMono_trans (tokensMono_of_eq rfl) hm)
    | (have hm := lexNumber_mono _ _ _ h
       exact tokensMono_trans (tokensMono_of_eq rfl) hm)
    | (simp only [Option.some.injEq] at h; subst h;
       exact tokensMono_of_eq rfl)
    | (subst h; exact tokensMono_addToken_of_eq rfl _ _ (by decide) (by decide))

theorem lexLoop_mono (fuel : Nat) :
    ∀ (st st' : LexState), lexLoop fuel st = some st' → tokensMono st st' := by
  induction fuel with
  | zero => intro st st' h; exact Option.noConfusion h
  | succ f ih =>
    intro st st' h
    rw [lexLoop] at h
    split at h
    · simp only [Option.some.injEq] at h; subst h
      exact tokensMono_of_eq rfl
    · cases hs : scanToken f { st with start := st.current } with
      | none => rw [hs] at h; exact Option.noConfusion h
      | some st1 =>
        rw [hs] at h
        have hm := scanToken_mono f _ _ hs
        exact tokensMono_trans (tokensMono_trans (tokensMono_of_eq rfl) hm)
          (ih st1 st' h)

/-- C2, counterexample: the claim says every token stream ends with the
DEDENTs owed by the indent stack, then a `NEWLINE`, then `EOF`.  On input
`"a"` the stream is `[NAME, EOF]` — there is no `NEWLINE` before the
`EOF`. -/
theorem lex_eof_layout_counterexample :
    ∃ ts, lexTokens 10 (("a").toList) = some ts ∧
      ts.map Token.type = [TT.NAME, TT.EOF] :=
  ⟨_, rfl, rfl⟩

/-- C2 (amended): `lex()` appends a single `EOF` token directly after the
last scanned token; no `DEDENT` (or `INDENT`) token is ever emitted — the
indent stack is unused — and nothing (in particular no `NEWLINE`) is
synthesised at the end of input. -/
theorem lex_token_stream_shape (fuel : Nat) (src : List Char)
    (ts : List Token) (h : lexTokens fuel src = some ts) :
    ∃ pre eofTok, ts = pre ++ [eofTok] ∧ eofTok.type = TT.EOF ∧
      ∀ t ∈ pre, t.type ≠ TT.DEDENT ∧ t.type ≠ TT.INDENT := by
  unfold lexTokens lexRun at h
  cases hl : lexLoop fuel (initLex src) with
  | none => rw [hl] at h; exact Option.noConfusion h
  | some stL =>
    rw [hl] at h
    simp only [Option.map, Option.some.injEq] at h
    subst h
    refine ⟨stL.tokens, _, rfl, rfl, ?_⟩
    intro t ht
    have hm := lexLoop_mono fuel (initLex src) stL hl
    rcases hm t ht with h' | h'
    · simp [initLex] at h'
    · exact h'

/-- Witness for `lex_token_stream_shape` at the input `"a"` with fuel 10. -/
theorem lex_token_stream_shape_witness :
    ∃ (pre : List Token) (eofTok : Token),
      [⟨TT.NAME, "a", .str ("a"), 0, 1, 1⟩,
       ⟨TT.EOF, "a", .null, 0, 1, 1⟩] = pre ++ [eofTok] ∧
      eofTok.type = TT.EOF ∧
      ∀ t ∈ pre, t.type ≠ TT.DEDENT ∧ t.type ≠ TT.INDENT :=
  lex_token_stream_shape 10 (("a").toList) _ rfl

/-- The comment loop never exits when scanning the one-character source
`"#"`: every position at or past the end reads NUL, never a newline. -/
theorem commentLoop_hash_none :
    ∀ (fuel : Nat) (st : LexState), st.source = ("#").toList →
      1 ≤ st.current → commentLoop fuel st = none := by
  intro fuel
  induction fuel with
  | zero => intro st h1 h2; rfl
  | succ f ih =>
    intro st h1 h2
    rw [commentLoop]
    have hp : st.peekc = nulChar := by
      unfold LexState.peekc charAt
      rw [h1]
      apply List.getD_eq_default
      simpa using h2
    rw [hp]
    have hne : (nulChar == '\n') = false := by decide
    rw [hne]
    exact ih st.adv (by simp [LexState.adv, h1]) (by simp [LexState.adv])

/-- C7: the lexer diverges on a `#` comment that is not closed by a
newline (the loop `while (!this.check('\n')) this.next();` has no `eof`
guard, and `peek()` past the end of input returns NUL, never `'\n'`): on
the source `"#"` no amount of fuel makes `lex()` return.  By contrast the
claim's other scenario, an unterminated string literal, does terminate:
on `x = "hello` cut down to `"ab` the lexer returns a `LITERAL_STR` token
and the unterminated-string diagnostic with `hasError` set. -/
theorem lex_comment_no_eof_guard :
    (∀ fuel, lexTokens fuel (("#").toList) = none) ∧
    (∃ st, lexRun 20 (initLex (("\"ab").toList)) = some st ∧
      st.hasError = true ∧
      st.tokens.map Token.type = [TT.LITERAL_STR, TT.EOF] ∧
      st.errors = [msgUnterminatedString]) := by
  constructor
  · intro fuel
    match fuel with
    | 0 => rfl
    | f + 1 =>
      have hstep : lexLoop (f + 1) (initLex (("#").toList)) =
          match commentLoop f ((initLex (("#").toList)).adv) with
          | none => none
          | some st1 => lexLoop f st1 := rfl
      have hdiv : commentLoop f ((initLex (("#").toList)).adv) = none :=
        commentLoop_hash_none f _ rfl (by simp [initLex, LexState.adv])
      unfold lexTokens lexRun
      rw [hstep, hdiv]
      rfl
  · exact ⟨_, rfl, rfl, rfl, rfl⟩

/-! ## The parser (`src/parser/aveparser.ts` and its parselets)

The `AveParser` subclass in `aveparser.ts` is part of the sources; its base
class `Parser` (`parser.ts`), the precedence module, the parselet files
(`assign.ts`, `call.ts`, `member-access.ts`, `object.ts`, `array.ts`) and
the symbol-table module are not.  Modelled from the spec:

* the Pratt core `parseExpression(minPrec)` (read a token, dispatch to its
  prefix parselet or report `Unexpected <raw>` with a sentinel error node,
  then fold infix/postfix parselets while the looked-up precedence is
  greater than `minPrec`, or greater-or-equal for right-associative
  entries);
* the precedence ladder `NONE < ASSIGN < LOGIC_OR < … < GROUPING < MAX`,
  with assignment and `**` right-associative and everything else left;
* the cursor and error helpers (`peek`, `next`, `check`, `match`, `expect`,
  `consume`; an error pushes a diagnostic onto the root's `errors` and sets
  its `hasError`, and a failed `expect` reports without consuming);
* the parselets for calls, member access, object and array literals, and
  assignment (which requires the left side to be an identifier or a member
  access and reports `Invalid assignment target` otherwise);
* `getDeclarationKind` of the symbol-table module (`var` function-scoped,
  `let` block-scoped, `const` constant).

Everything else below (registration table, `parse`, `statement`,
`declaration`, `varDeclaration`, `varDeclarator`, `sugarDeclaration`,
`ifStmt`, `forStmt`, `returnStmt`, `funcDecl`, `funcExpr`,
`parseFunctionBody`, `parseParams`, `parseParam`, `recordDecl`,
`parseGenericParams`, and the type-annotation grammar `parseType` with
`isValidType`) is translated from the sources. -/

def Prec.NONE : Nat := 0
def Prec.ASSIGN : Nat := 1
def Prec.LOGIC_OR : Nat := 2
def Prec.LOGIC_AND : Nat := 3
def Prec.BIT_OR : Nat := 4
def Prec.BIT_XOR : Nat := 5
def Prec.BIT_AND : Nat := 6
def Prec.EQUALITY : Nat := 7
def Prec.COMPARISON : Nat := 8
def Prec.ADD : Nat := 9
def Prec.MULT : Nat := 10
def Prec.POW : Nat := 11
def Prec.PRE_UNARY : Nat := 12
def Prec.POST_UNARY : Nat := 13
def Prec.CALL : Nat := 14
def Prec.COMP_MEM_ACCESS : Nat := 15
def Prec.MEM_ACCESS : Nat := 16
def Prec.GROUPING : Nat := 17
def Prec.MAX : Nat := 18

/-- The parser-side representation of a parsed type annotation.  The type
classes referenced by the type parselet (`GenericInstance`, `UnionType`,
`ObjectType` and the `type/` family's `FunctionType`) are not in the
sources; modelled from the spec's description of the type registry. -/
inductive PType where
  | reg (t : Typ)
  | unknownT (tag : String)
  | arrayInst (elem : PType)
  | genericInst (name : String) (args : List PType)
  | fnT (params : List (String × PType)) (ret : PType)
  | objT (props : List (String × PType))
  | unionT (members : List PType)

/-- `Typing.fromToken` (`types.ts`): primitive type-name tokens map to the
singletons, everything else to a fresh unresolved placeholder bearing the
token's raw text. -/
def fromTokenP (tok : Token) : PType :=
  match tok.type with
  | .STRING => .reg t_string
  | .BOOL => .reg t_bool
  | .NUMBER => .reg t_number
  | .OBJECT => .reg t_object
  | .ANY => .reg t_any
  | _ => .unknownT tok.raw

/-- `AST.TypeInfo`: an annotation site (token, type). -/
structure TypeInfo where
  token : Token
  type : PType

/-- A literal's payload (`string | number | boolean`). -/
inductive LitVal where
  | ofTok (v : TokenValue)
  | boolean (b : Bool)

/-- Declaration kinds (`symtable.ts`, modelled from the spec): `var` is
function-scoped, `let` block-scoped, `const` constant. -/
inductive DeclKind where
  | FunctionScope
  | BlockScope
  | Constant

/-- `getDeclarationKind` (modelled from the spec). -/
def getDeclarationKind (raw : String) : DeclKind :=
  match raw with
  | "var" => .FunctionScope
  | "const" => .Constant
  | _ => .BlockScope

/-- An entry of a `Body`'s hoisted `declarations` list: either a
`HoistedVarDeclaration(name, type)` or a `FuncDeclaration` made from a
function declaration node (`declaration.ts` is not in the sources; the
spec says a `FuncDeclaration` entry is pushed when a `FunctionDeclaration`
finishes). -/
inductive Decl where
  | hoistedVar (name : String) (type : Typ)
  | funcD (name : String)

mutual

inductive Expr where
  | literal (tok : Token) (value : LitVal)
  | ident (tok : Token)
  | binary (l : Expr) (op : Token) (r : Expr)
  | preUnary (op : Token) (e : Expr)
  | postUnary (op : Token) (e : Expr)
  | assign (l : Expr) (op : Token) (r : Expr)
  | group (lparen : Token) (e : Expr)
  | callE (callee : Expr) (args : List Expr)
  | memberAccess (op : Token) (obj : Expr) (prop : Expr) (isIndexed : Bool)
  | arrayE (tok : Token) (elems : List Expr)
  | objectE (tok : Token) (pairs : List (Token × Expr))
  | funcE (kw : Token) (params : List FParam) (returnTypeInfo : TypeInfo)
      (body : Body) (isArrow : Bool)
  | errorE (tok : Token)

inductive FParam where
  | mk (name : String) (token : Token) (typeInfo : TypeInfo)
      (required : Bool) (rest : Bool) (defaultValue : Option Expr)

inductive VarDeclarator where
  | mk (name : Token) (value : Option Expr) (typeInfo : TypeInfo)

inductive Stmt where
  | exprStmt (e : Expr)
  | varDeclS (tok : Token) (kind : DeclKind)
      (declarators : List VarDeclarator)
  | ifS (kw : Token) (cond : Expr) (thenB : Body) (elseB : Option Body)
  | forS (kw : Token) (counter : Token) (start stop : Expr)
      (step : Option Expr) (body : Body)
  | returnS (kw : Token) (e : Option Expr)
  | funcDeclS (name : Token) (returnTypeInfo : TypeInfo)
      (params : List FParam) (body : Body)
  | recordDeclS (name : Token) (isGeneric : Bool) (typeArgs : List PType)
      (props : List (Token × TypeInfo))

inductive Body where
  | mk (statements : List Stmt) (declarations : List Decl)

end

/-- The hoisted declarations of a `Body`. -/
def Body.declarations : Body → List Decl
  | .mk _ ds => ds

/-- The statements of a `Body`. -/
def Body.statements : Body → List Stmt
  | .mk ss _ => ss

/-- The parser cursor and diagnostics state (the fields of the base
`Parser` plus the root's `errors`/`hasError`, which the error helper
writes). -/
structure PState where
  tokens : List Token
  pos : Nat
  errors : List String
  hasError : Bool
  deriving Repr

/-- The token returned for reads past the end of the token buffer. -/
def eofTok : Token :=
  { type := .EOF, raw := "", value := .null, startPos := 0, endPos := 0,
    line := 0 }

def initPS (ts : List Token) : PState :=
  { tokens := ts, pos := 0, errors := [], hasError := false }

def PState.peekT (ps : PState) : Token := ps.tokens.getD ps.pos eofTok

def PState.peekNextT (ps : PState) : Token :=
  ps.tokens.getD (ps.pos + 1) eofTok

def PState.prevT (ps : PState) : Token := ps.tokens.getD (ps.pos - 1) eofTok

def PState.advP (ps : PState) : PState := { ps with pos := ps.pos + 1 }

def PState.checkT (ps : PState) (t : TT) : Bool := ps.peekT.type == t

def PState.checkNextT (ps : PState) (t : TT) : Bool :=
  ps.peekNextT.type == t

def PState.matchT (ps : PState) (t : TT) : Bool × PState :=
  if ps.checkT t then (true, ps.advP) else (false, ps)

/-- `match` over several kinds (`this.match(VAR, CONST, LET)`). -/
def PState.matchAny (ps : PState) (ts : List TT) : Bool × PState :=
  if ts.any (fun t => ps.checkT t) then (true, ps.advP) else (false, ps)

/-- Record a diagnostic on the root and set `hasError`. -/
def PState.errP (ps : PState) (msg : String) : PState :=
  { ps with hasError := true, errors := ps.errors ++ [msg] }

/-- `expect`: consume and return the expected token, else report the error
(without consuming) and return the current token. -/
def PState.expectT (ps : PState) (t : TT) (msg : String) : Token × PState :=
  if ps.checkT t then (ps.peekT, ps.advP) else (ps.peekT, ps.errP msg)

/-- `consume(type)`: eat the next token when it has the given kind. -/
def PState.consume1 (ps : PState) (t : TT) : PState :=
  if ps.checkT t then ps.advP else ps

/-- `consume(t1, t2)`: eat the next token when it has either kind. -/
def PState.consume2 (ps : PState) (t1 t2 : TT) : PState :=
  if ps.checkT t1 || ps.checkT t2 then ps.advP else ps

/-- `this.eof()` for the parser: the cursor sits on the `EOF` token. -/
def PState.eofP (ps : PState) : Bool := ps.peekT.type == .EOF

/-- `AveParser.isValidType(token)` (the guard written in the source is
`token.type >= TokenType.STRING || token.type <= TokenType.ANY`, a
disjunction over the numeric enum values). -/
def isValidType (token : Token) : Bool :=
  if TT.toNat token.type ≥ TT.toNat .STRING ||
      TT.toNat token.type ≤ TT.toNat .ANY then true
  else if token.type == .NAME then true
  else false

/-- The kind of an infix parselet registration. -/
inductive IKind where
  | binary
  | assignK
  | callK
  | memberDot
  | memberIndex
  | objColon

/-- The infix registrations of the `AveParser` constructor: token kind to
(precedence, right-associative?, parselet).  `**` is registered at `POW`;
the spec states assignment and `**` are the right-associative operators.
The computed-member parselet is registered on `L_BRACE` (as in the
constructor), and the infix `:` object parselet at `MAX`. -/
def infixEntry : TT → Option (Nat × Bool × IKind)
  | .PLUS => some (Prec.ADD, false, .binary)
  | .MINUS => some (Prec.ADD, false, .binary)
  | .STAR => some (Prec.MULT, false, .binary)
  | .DIV => some (Prec.MULT, false, .binary)
  | .MOD => some (Prec.MULT, false, .binary)
  | .POW => some (Prec.POW, true, .binary)
  | .GREATER => some (Prec.COMPARISON, false, .binary)
  | .GREATER_EQ => some (Prec.COMPARISON, false, .binary)
  | .LESS => some (Prec.COMPARISON, false, .binary)
  | .LESS_EQ => some (Prec.COMPARISON, false, .binary)
  | .EQ_EQ => some (Prec.EQUALITY, false, .binary)
  | .IS => some (Prec.EQUALITY, false, .binary)
  | .BANG_EQ => some (Prec.EQUALITY, false, .binary)
  | .XOR => some (Prec.BIT_XOR, false, .binary)
  | .PIPE => some (Prec.BIT_OR, false, .binary)
  | .AMP => some (Prec.BIT_AND, false, .binary)
  | .AND => some (Prec.LOGIC_AND, false, .binary)
  | .OR => some (Prec.LOGIC_OR, false, .binary)
  | .DOT => some (Prec.MEM_ACCESS, false, .memberDot)
  | .L_BRACE => some (Prec.COMP_MEM_ACCESS, false, .memberIndex)
  | .COLON => some (Prec.MAX, false, .objColon)
  | .EQ => some (Prec.ASSIGN, true, .assignK)
  | .DIV_EQ => some (Prec.ASSIGN, true, .assignK)
  | .MINUS_EQ => some (Prec.ASSIGN, true, .assignK)
  | .STAR_EQ => some (Prec.ASSIGN, true, .assignK)
  | .MOD_EQ => some (Prec.ASSIGN, true, .assignK)
  | .PLUS_EQ => some (Prec.ASSIGN, true, .assignK)
  | .POW_EQ => some (Prec.ASSIGN, true, .assignK)
  | .L_PAREN => some (Prec.CALL, false, .callK)
  | _ => none

/-- The postfix registrations (`++`, `--` at `POST_UNARY`). -/
def postfixEntry : TT → Option Nat
  | .PLUS_PLUS => some Prec.POST_UNARY
  | .MINUS_MINUS => some Prec.POST_UNARY
  | _ => none

/-- The assignment parselet's target test: identifier, member access or
indexed access (modelled from the spec). -/
def isAssignTarget : Expr → Bool
  | .ident _ => true
  | .memberAccess _ _ _ _ => true
  | _ => false

def msgUnexpectedPrefix : String := "Unexpected token."
def msgExpectedRParen : String := "Expected closing paren."
def msgInvalidAssignTarget : String := "Invalid assignment target."
def msgExpectedPropName : String := "Expected property name."
def msgExpectedRSqBrace : String := "Expected closing square bracket."
def msgExpectedObjKey : String := "Expected object key name."
def msgExpectedColon : String := "Expected a colon."
def msgExpectedRBrace : String := "Expected closing brace."
def msgExpectedVarName : String := "Expected variable name."
def msgExpectedIndentIf : String := "Expected indent before if body."
def msgExpectedIndentElse : String := "Expected indent before else body."
def msgExpectedLoopName : String := "Expected name as loop initilializer."
def msgExpectedEqFor : String := "Expected equals sign."
def msgExpectedCommaFor : String := "Expected a comma."
def msgExpectedIndentFor : String := "Expected indented block as for loop body."
def msgExpectedFuncName : String := "Expected function name."
def msgExpectedIndentBlock : String := "Expected indented block."
def msgExpectedLParenParams : String := "Expected open paren before function parameters."
def msgExpectedRParenParams : String := "Expected closing paren after function parameters."
def msgExpectedParamName : String := "Expected parameter name."
def msgExpectedIndentRecord : String := "Expected Indented block."
def msgExpectedGreater : String := "Expected closing angle bracket after type arguments."
def msgExpectedColonField : String := "Expected a colon after field name."
def msgExpectedCommaType : String := "Expected a comma."

mutual

/-- `parseExpression(minPrec)`: read a token, run its prefix parselet (or
report and yield a sentinel error node), then fold infix and postfix
parselets through `infixLoopF`. -/
def parseExpressionF : Nat → Nat → PState → Option (Expr × PState)
  | 0, _, _ => none
  | f + 1, minPrec, ps =>
    let t := ps.peekT
    let ps := ps.advP
    match
      (match t.type with
      | .LITERAL_NUM => some (Expr.literal t (.ofTok t.value), ps)
      | .LITERAL_STR => some (Expr.literal t (.ofTok t.value), ps)
      | .TRUE => some (Expr.literal t (.boolean true), ps)
      | .FALSE => some (Expr.literal t (.boolean false), ps)
      | .NAME => some (Expr.ident t, ps)
      | .FUNC => funcExprF f t ps
      | .INDENT => objectParseF f t ps
      | .L_BRACE => braceObjectF f t ps
      | .L_SQ_BRACE => arrayParseF f t ps
      | .MINUS => prefixUnaryF f t ps
      | .BANG => prefixUnaryF f t ps
      | .PLUS => prefixUnaryF f t ps
      | .PLUS_PLUS => prefixUnaryF f t ps
      | .MINUS_MINUS => prefixUnaryF f t ps
      | .L_PAREN =>
        match parseExpressionF f Prec.NONE ps with
        | none => none
        | some (e, ps) =>
          some (Expr.group t e, (ps.expectT .R_PAREN msgExpectedRParen).2)
      | _ => some (Expr.errorE t, ps.errP msgUnexpectedPrefix)) with
    | none => none
    | some (left, ps) => infixLoopF f minPrec left ps

/-- A prefix unary parselet: parse the operand at `PRE_UNARY`. -/
def prefixUnaryF : Nat → Token → PState → Option (Expr × PState)
  | 0, _, _ => none
  | f + 1, op, ps =>
    match parseExpressionF f Prec.PRE_UNARY ps with
    | none => none
    | some (e, ps) => some (Expr.preUnary op e, ps)

/-- The infix/postfix fold of `parseExpression`: while the next token's
infix precedence is greater than `minPrec` (or greater-or-equal for a
right-associative entry), consume it and run its parselet; postfix
parselets follow the same rule. -/
def infixLoopF : Nat → Nat → Expr → PState → Option (Expr × PState)
  | 0, _, _, _ => none
  | f + 1, minPrec, left, ps =>
    let p := ps.peekT
    match infixEntry p.type with
    | some (prec, rightAssoc, kind) =>
      if minPrec < prec || (rightAssoc && prec == minPrec) then
        let ps := ps.advP
        match kind with
        | .binary =>
          match parseExpressionF f prec ps with
          | none => none
          | some (r, ps) => infixLoopF f minPrec (.binary left p r) ps
        | .assignK =>
          let ps := if isAssignTarget left then ps
            else ps.errP msgInvalidAssignTarget
          match parseExpressionF f prec ps with
          | none => none
          | some (r, ps) => infixLoopF f minPrec (.assign left p r) ps
        | .callK =>
          match parseArgsF f ps [] with
          | none => none
          | some (args, ps) => infixLoopF f minPrec (.callE left args) ps
        | .memberDot =>
          let (nameTok, ps) := ps.expectT .NAME msgExpectedPropName
          infixLoopF f minPrec
            (.memberAccess p left (.ident nameTok) false) ps
        | .memberIndex =>
          match parseExpressionF f Prec.NONE ps with
          | none => none
          | some (e, ps) =>
            let ps := (ps.expectT .R_SQ_BRACE msgExpectedRSqBrace).2
            infixLoopF f minPrec (.memberAccess p left e true) ps
        | .objColon =>
          match parseExpressionF f Prec.NONE ps with
          | none => none
          | some (v, ps) =>
            let key := match left with
              | .ident tk => tk
              | _ => p
            infixLoopF f minPrec (.objectE p [(key, v)]) ps
      else some (left, ps)
    | none =>
      match postfixEntry p.type with
      | some prec =>
        if minPrec < prec then
          infixLoopF f minPrec (.postUnary p left) ps.advP
        else some (left, ps)
      | none => some (left, ps)

/-- The call parselet's argument list, up to the closing paren. -/
def parseArgsF : Nat → PState → List Expr → Option (List Expr × PState)
  | 0, _, _ => none
  | f + 1, ps, acc =>
    match ps.matchT .R_PAREN with
    | (true, ps) => some (acc, ps)
    | (false, ps) =>
      match parseExpressionF f Prec.NONE ps with
      | none => none
      | some (e, ps) =>
        match ps.matchT .COMMA with
        | (true, ps) => parseArgsF f ps (acc ++ [e])
        | (false, ps) =>
          some (acc ++ [e], (ps.expectT .R_PAREN msgExpectedRParen).2)

/-- The array parselet's element list, up to the closing square bracket. -/
def arrayElemsF : Nat → PState → List Expr → Option (List Expr × PState)
  | 0, _, _ => none
  | f + 1, ps, acc =>
    match ps.matchT .R_SQ_BRACE with
    | (true, ps) => some (acc, ps)
    | (false, ps) =>
      match parseExpressionF f Prec.NONE ps with
      | none => none
      | some (e, ps) =>
        match ps.matchT .COMMA with
        | (true, ps) => arrayElemsF f ps (acc ++ [e])
        | (false, ps) =>
          some (acc ++ [e], (ps.expectT .R_SQ_BRACE msgExpectedRSqBrace).2)

/-- The array parselet. -/
def arrayParseF : Nat → Token → PState → Option (Expr × PState)
  | 0, _, _ => none
  | f + 1, tok, ps =>
    match arrayElemsF f ps [] with
    | none => none
    | some (elems, ps) => some (Expr.arrayE tok elems, ps)

/-- The object parselet's `name ':' expression` pair list, separated by
`,` or `NEWLINE`, up to the terminator. -/
def objPairsF : Nat → TT → PState → List (Token × Expr) →
    Option (List (Token × Expr) × PState)
  | 0, _, _, _ => none
  | f + 1, term, ps, acc =>
    match ps.matchT term with
    | (true, ps) => some (acc, ps)
    | (false, ps) =>
      let (nameTok, ps) := ps.expectT .NAME msgExpectedObjKey
      let (_, ps) := ps.expectT .COLON msgExpectedColon
      match parseExpressionF f Prec.NONE ps with
      | none => none
      | some (v, ps) =>
        match ps.matchT .COMMA with
        | (true, ps) => objPairsF f term ps (acc ++ [(nameTok, v)])
        | (false, ps) =>
          objPairsF f term (ps.consume1 .NEWLINE) (acc ++ [(nameTok, v)])

/-- The object parselet: when invoked on an `INDENT` token the pairs run to
the matching `DEDENT`, otherwise (brace form) to the closing brace. -/
def objectParseF : Nat → Token → PState → Option (Expr × PState)
  | 0, _, _ => none
  | f + 1, tok, ps =>
    let term : TT := if tok.type == .INDENT then .DEDENT else .R_BRACE
    match objPairsF f term ps [] with
    | none => none
    | some (pairs, ps) => some (Expr.objectE tok pairs, ps)

/-- The `L_BRACE` prefix closure of the `AveParser` constructor: a brace
followed by an `INDENT` runs the object parselet on the indent token and
then eats the explicit closing brace; otherwise the object parselet runs on
the brace itself. -/
def braceObjectF : Nat → Token → PState → Option (Expr × PState)
  | 0, _, _ => none
  | f + 1, brace, ps =>
    if ps.checkT .INDENT then
      let t := ps.peekT
      let ps := ps.advP
      match objectParseF f t ps with
      | none => none
      | some (obj, ps) =>
        some (obj, (ps.expectT .R_BRACE msgExpectedRBrace).2)
    else objectParseF f brace ps

/-- `statement()`. -/
def statementF : Nat → PState → Option ((Stmt × List Decl) × PState)
  | 0, _ => none
  | f + 1, ps =>
    if ps.checkT .IF then ifStmtF f ps
    else if ps.checkT .FOR then forStmtF f ps
    else if ps.checkT .RETURN then returnStmtF f ps
    else declarationF f ps

/-- `declaration()`. -/
def declarationF : Nat → PState → Option ((Stmt × List Decl) × PState)
  | 0, _ => none
  | f + 1, ps =>
    match ps.matchAny [.VAR, .CONST, .LET] with
    | (true, ps) => varDeclarationF f ps.prevT ps
    | (false, ps) =>
      if ps.checkT .NAME && ps.checkNextT .COLON then sugarDeclF f ps
      else
        match ps.matchT .FUNC with
        | (true, ps) => funcDeclF f ps
        | (false, ps) =>
          match ps.matchT .RECORD with
          | (true, ps) => recordDeclF f ps
          | (false, ps) =>
            match parseExpressionF f Prec.NONE ps with
            | none => none
            | some (e, ps) =>
              some ((.exprStmt e, []), ps.consume1 .SEMI_COLON)

/-- `sugarDeclaration()`: `NAME ':' …` declares a block-scoped binding. -/
def sugarDeclF : Nat → PState → Option ((Stmt × List Decl) × PState)
  | 0, _ => none
  | f + 1, ps =>
    let tok := ps.peekT
    match varDeclaratorF f ps with
    | none => none
    | some (d, ps) =>
      some ((.varDeclS tok .BlockScope [d], []), ps.consume1 .SEMI_COLON)

/-- `varDeclaration(tok)`. -/
def varDeclarationF : Nat → Token → PState →
    Option ((Stmt × List Decl) × PState)
  | 0, _, _ => none
  | f + 1, tok, ps =>
    let kind := getDeclarationKind tok.raw
    match ps.matchT .L_PAREN with
    | (true, ps) =>
      match varDeclListF f ps [] with
      | none => none
      | some (ds, ps) =>
        let (_, ps) := ps.expectT .R_PAREN msgExpectedRParen
        some ((.varDeclS tok kind ds, []), ps.consume1 .SEMI_COLON)
    | (false, ps) =>
      match varDeclaratorF f ps with
      | none => none
      | some (d, ps) =>
        some ((.varDeclS tok kind [d], []), ps.consume1 .SEMI_COLON)

/-- The parenthesised declarator list of `varDeclaration`
(`while (this.check(NAME)) { … this.consume(COMMA); }`). -/
def varDeclListF : Nat → PState → List VarDeclarator →
    Option (List VarDeclarator × PState)
  | 0, _, _ => none
  | f + 1, ps, acc =>
    if ps.checkT .NAME then
      match varDeclaratorF f ps with
      | none => none
      | some (d, ps) => varDeclListF f (ps.consume1 .COMMA) (acc ++ [d])
    else some (acc, ps)

/-- `varDeclarator()`. -/
def varDeclaratorF : Nat → PState → Option (VarDeclarator × PState)
  | 0, _ => none
  | f + 1, ps =>
    let (nameTok, ps) := ps.expectT .NAME msgExpectedVarName
    let ti : TypeInfo := ⟨ps.prevT, .reg t_infer⟩
    match
      (match ps.matchT .COLON with
      | (true, ps) =>
        if ps.checkT .EQ then some (ti, ps)
        else parseTypeF f ps
      | (false, ps) => some (ti, ps)) with
    | none => none
    | some (ti, ps) =>
      match ps.matchT .EQ with
      | (true, ps) =>
        match parseExpressionF f Prec.NONE ps with
        | none => none
        | some (v, ps) => some (.mk nameTok (some v) ti, ps)
      | (false, ps) => some (.mk nameTok none ti, ps)

/-- `ifStmt()`. -/
def ifStmtF : Nat → PState → Option ((Stmt × List Decl) × PState)
  | 0, _ => none
  | f + 1, ps =>
    let kw := ps.peekT
    let ps := ps.advP
    match parseExpressionF f Prec.NONE ps with
    | none => none
    | some (cond, ps) =>
      let ps := ps.consume1 .COLON
      let (_, ps) := ps.expectT .INDENT msgExpectedIndentIf
      match blockEofF f ps [] [] with
      | none => none
      | some ((thenStmts, thenDecls), ps) =>
        let thenB := Body.mk thenStmts thenDecls
        if ps.checkT .ELIF then
          match ifStmtF f ps with
          | none => none
          | some ((st, ds), ps) =>
            some ((.ifS kw cond thenB (some (Body.mk [st] ds)), []), ps)
        else
          match ps.matchT .ELSE with
          | (true, ps) =>
            let ps := ps.consume1 .COLON
            let (_, ps) := ps.expectT .INDENT msgExpectedIndentElse
            match blockEofF f ps [] [] with
            | none => none
            | some ((elseStmts, elseDecls), ps) =>
              some ((.ifS kw cond thenB
                (some (Body.mk elseStmts elseDecls)), []), ps)
          | (false, ps) => some ((.ifS kw cond thenB none, []), ps)

/-- A statement block ending at a `DEDENT`, with the source's `eof` guard
(`while (!this.eof() && !this.match(DEDENT))`); the statements' hoisted
declarations accumulate into the block's body. -/
def blockEofF : Nat → PState → List Stmt → List Decl →
    Option ((List Stmt × List Decl) × PState)
  | 0, _, _, _ => none
  | f + 1, ps, accS, accD =>
    if ps.eofP then some ((accS, accD), ps)
    else
      match ps.matchT .DEDENT with
      | (true, ps) => some ((accS, accD), ps)
      | (false, ps) =>
        match statementF f ps with
        | none => none
        | some ((st, ds), ps) => blockEofF f ps (accS ++ [st]) (accD ++ ds)

/-- A statement block ending at a `DEDENT` with **no** `eof` guard
(`while (!this.match(DEDENT))`, used by `forStmt` and `recordDecl`). -/
def blockF : Nat → PState → List Stmt → List Decl →
    Option ((List Stmt × List Decl) × PState)
  | 0, _, _, _ => none
  | f + 1, ps, accS, accD =>
    match ps.matchT .DEDENT with
    | (true, ps) => some ((accS, accD), ps)
    | (false, ps) =>
      match statementF f ps with
      | none => none
      | some ((st, ds), ps) => blockF f ps (accS ++ [st]) (accD ++ ds)

/-- `forStmt()`: note the loop counter is hoisted **twice** into the body's
declarations, once before the body's statements are parsed and once
after. -/
def forStmtF : Nat → PState → Option ((Stmt × List Decl) × PState)
  | 0, _ => none
  | f + 1, ps =>
    let kw := ps.peekT
    let ps := ps.advP
    let (nameTok, ps) := ps.expectT .NAME msgExpectedLoopName
    let (_, ps) := ps.expectT .EQ msgExpectedEqFor
    match parseExpressionF f Prec.NONE ps with
    | none => none
    | some (start, ps) =>
      let (_, ps) := ps.expectT .COMMA msgExpectedCommaFor
      match parseExpressionF f Prec.NONE ps with
      | none => none
      | some (stop, ps) =>
        match
          (match ps.matchT .COMMA with
          | (true, ps) =>
            match parseExpressionF f Prec.NONE ps with
            | none => none
            | some (e, ps) => some ((some e : Option Expr), ps)
          | (false, ps) => some ((none : Option Expr), ps)) with
        | none => none
        | some (step, ps) =>
          let ps := ps.consume1 .COLON
          let (_, ps) := ps.expectT .INDENT msgExpectedIndentFor
          match blockF f ps [] [] with
          | none => none
          | some ((stmts, decls), ps) =>
            let body := Body.mk stmts
              (Decl.hoistedVar nameTok.raw t_number ::
                (decls ++ [Decl.hoistedVar nameTok.raw t_number]))
            some ((.forS kw nameTok start stop step body, []), ps)

/-- `returnStmt()`. -/
def returnStmtF : Nat → PState → Option ((Stmt × List Decl) × PState)
  | 0, _ => none
  | f + 1, ps =>
    let kw := ps.peekT
    let ps := ps.advP
    if ps.eofP then some ((.returnS kw none, []), ps)
    else
      match ps.matchT .SEMI_COLON with
      | (true, ps) => some ((.returnS kw none, []), ps)
      | (false, ps) =>
        if ps.checkT .NEWLINE || ps.checkT .DEDENT then
          some ((.returnS kw none, []), ps)
        else
          match parseExpressionF f Prec.NONE ps with
          | none => none
          | some (e, ps) =>
            some ((.returnS kw (some e), []), ps.consume1 .SEMI_COLON)

/-- `funcDecl()`; finishing the declaration pushes a `FuncDeclaration`
entry onto the enclosing block scope's hoisted declarations
(`parseFunctionBody`). -/
def funcDeclF : Nat → PState → Option ((Stmt × List Decl) × PState)
  | 0, _ => none
  | f + 1, ps =>
    let (nameTok, ps) := ps.expectT .NAME msgExpectedFuncName
    let ti : TypeInfo := ⟨ps.peekT, .reg t_infer⟩
    match parseParamsF f ps with
    | none => none
    | some (params, ps) =>
      match
        (match ps.matchT .COLON with
        | (true, ps) => parseTypeF f ps
        | (false, ps) => some (ti, ps)) with
      | none => none
      | some (rt, ps) =>
        let ps := ps.consume1 .COLON
        let (_, ps) := ps.expectT .INDENT msgExpectedIndentBlock
        match blockEofF f ps [] [] with
        | none => none
        | some ((stmts, decls), ps) =>
          some ((.funcDeclS nameTok rt params (Body.mk stmts decls),
            [Decl.funcD nameTok.raw]), ps)

/-- `funcExpr(kw)` (the `func` prefix parselet); a function *expression*
pushes nothing onto the enclosing scope. -/
def funcExprF : Nat → Token → PState → Option (Expr × PState)
  | 0, _, _ => none
  | f + 1, kw, ps =>
    let ti : TypeInfo := ⟨ps.peekT, .reg t_infer⟩
    match parseParamsF f ps with
    | none => none
    | some (params, ps) =>
      match
        (match ps.matchT .COLON with
        | (true, ps) => parseTypeF f ps
        | (false, ps) => some (ti, ps)) with
      | none => none
      | some (rt, ps) =>
        let (_, ps) := ps.expectT .INDENT msgExpectedIndentBlock
        match blockEofF f ps [] [] with
        | none => none
        | some ((stmts, decls), ps) =>
          some (Expr.funcE kw params rt (Body.mk stmts decls) false, ps)

/-- `parseParams()` of `aveparser.ts`. -/
def parseParamsF : Nat → PState → Option (List FParam × PState)
  | 0, _ => none
  | f + 1, ps =>
    let (_, ps) := ps.expectT .L_PAREN msgExpectedLParenParams
    paramsLoopF f ps []

/-- The loop of `parseParams()`. -/
def paramsLoopF : Nat → PState → List FParam →
    Option (List FParam × PState)
  | 0, _, _ => none
  | f + 1, ps, acc =>
    match ps.matchT .R_PAREN with
    | (true, ps) => some (acc, ps)
    | (false, ps) =>
      match parseParamF f ps with
      | none => none
      | some (p, ps) =>
        match ps.matchT .COMMA with
        | (true, ps) => paramsLoopF f ps (acc ++ [p])
        | (false, ps) =>
          some (acc ++ [p], (ps.expectT .R_PAREN msgExpectedRParenParams).2)

/-- `parseParam()` of `aveparser.ts`. -/
def parseParamF : Nat → PState → Option (FParam × PState)
  | 0, _ => none
  | f + 1, ps =>
    let (tok, ps) := ps.expectT .NAME msgExpectedParamName
    let ti : TypeInfo := ⟨ps.prevT, .reg t_any⟩
    match
      (match ps.matchT .COLON with
      | (true, ps) => parseTypeF f ps
      | (false, ps) => some (ti, ps)) with
    | none => none
    | some (ti, ps) =>
      match ps.matchT .EQ with
      | (true, ps) =>
        match parseExpressionF f Prec.NONE ps with
        | none => none
        | some (dv, ps) =>
          some (.mk tok.raw tok ti true false (some dv), ps)
      | (false, ps) => some (.mk tok.raw tok ti true false none, ps)

/-- `recordDecl()`. -/
def recordDeclF : Nat → PState → Option ((Stmt × List Decl) × PState)
  | 0, _ => none
  | f + 1, ps =>
    let nameTok := ps.peekT
    let ps := ps.advP
    match
      (match ps.matchT .LESS with
      | (true, ps) =>
        match genericParamsF f ps [] with
        | none => none
        | some (args, ps) => some ((true, args), ps)
      | (false, ps) => some ((false, ([] : List PType)), ps)) with
    | none => none
    | some ((isGen, typeArgs), ps) =>
      let ps := ps.consume1 .COLON
      let (_, ps) := ps.expectT .INDENT msgExpectedIndentRecord
      match recordPropsF f ps [] with
      | none => none
      | some (props, ps) =>
        some ((.recordDeclS nameTok isGen typeArgs props, []), ps)

/-- The property loop of `recordDecl` (`while (!this.match(DEDENT))`). -/
def recordPropsF : Nat → PState → List (Token × TypeInfo) →
    Option (List (Token × TypeInfo) × PState)
  | 0, _, _ => none
  | f + 1, ps, acc =>
    match ps.matchT .DEDENT with
    | (true, ps) => some (acc, ps)
    | (false, ps) =>
      let (nameTok, ps) := ps.expectT .NAME msgExpectedPropName
      let (_, ps) := ps.expectT .COLON msgExpectedColon
      match parseTypeF f ps with
      | none => none
      | some (ti, ps) => recordPropsF f ps (acc ++ [(nameTok, ti)])

/-- `parseGenericParams()` (`while (!this.match(GREATER)) …`). -/
def genericParamsF : Nat → PState → List PType →
    Option (List PType × PState)
  | 0, _, _ => none
  | f + 1, ps, acc =>
    match ps.matchT .GREATER with
    | (true, ps) => some (acc, ps)
    | (false, ps) =>
      match parseTypeF f ps with
      | none => none
      | some (ti, ps) =>
        match ps.matchT .COMMA with
        | (true, ps) => genericParamsF f ps (acc ++ [ti.type])
        | (false, ps) =>
          some (acc ++ [ti.type], (ps.expectT .GREATER msgExpectedGreater).2)

/-- `parseType` (the type parselet): a non-union atom, then an optional
`'|'`-separated union. -/
def parseTypeF : Nat → PState → Option (TypeInfo × PState)
  | 0, _ => none
  | f + 1, ps =>
    match parseNonUnionTypeF f ps with
    | none => none
    | some (t, ps) =>
      if ps.checkT .PIPE then
        match unionLoopF f ps [t.type] with
        | none => none
        | some (subtypes, ps) =>
          some (⟨t.token, .unionT subtypes⟩, ps)
      else some (t, ps)

/-- The union loop of `parseType` (`while (parser.match(PIPE)) …`). -/
def unionLoopF : Nat → PState → List PType →
    Option (List PType × PState)
  | 0, _, _ => none
  | f + 1, ps, acc =>
    match ps.matchT .PIPE with
    | (true, ps) =>
      match parseNonUnionTypeF f ps with
      | none => none
      | some (t, ps) => unionLoopF f ps (acc ++ [t.type])
    | (false, ps) => some (acc, ps)

/-- `parseNonUnionType`. -/
def parseNonUnionTypeF : Nat → PState → Option (TypeInfo × PState)
  | 0, _ => none
  | f + 1, ps =>
    if isValidType ps.peekT then
      let typeToken := ps.peekT
      let ps := ps.advP
      match ps.matchT .L_SQ_BRACE with
      | (true, ps) =>
        let (_, ps) := ps.expectT .R_SQ_BRACE msgExpectedRSqBrace
        some (⟨typeToken, .arrayInst (fromTokenP typeToken)⟩, ps)
      | (false, ps) =>
        match ps.matchT .LESS with
        | (true, ps) => genericInstanceF f typeToken ps []
        | (false, ps) => some (⟨typeToken, fromTokenP typeToken⟩, ps)
    else
      match ps.matchT .L_PAREN with
      | (true, ps) =>
        match parseFunctionTypeF f ps with
        | none => none
        | some (ft, ps) => some (⟨ps.prevT, ft⟩, ps)
      | (false, ps) =>
        match ps.matchT .L_BRACE with
        | (true, ps) =>
          match objectTypeF f ps [] with
          | none => none
          | some (props, ps) => some (⟨ps.prevT, .objT props⟩, ps)
        | (false, ps) => some (⟨ps.peekT, .reg t_any⟩, ps)

/-- `parseFunctionType` (the opening paren is already consumed). -/
def parseFunctionTypeF : Nat → PState → Option (PType × PState)
  | 0, _ => none
  | f + 1, ps =>
    match typeParamsLoopF f ps [] with
    | none => none
    | some (params, ps) =>
      match ps.matchT .ARROW with
      | (true, ps) =>
        match parseTypeF f ps with
        | none => none
        | some (rt, ps) => some (.fnT params rt.type, ps)
      | (false, ps) => some (.fnT params (.reg t_any), ps)

/-- The parameter loop of `parseFunctionType`
(`while (!parser.match(R_PAREN)) …`). -/
def typeParamsLoopF : Nat → PState → List (String × PType) →
    Option (List (String × PType) × PState)
  | 0, _, _ => none
  | f + 1, ps, acc =>
    match ps.matchT .R_PAREN with
    | (true, ps) => some (acc, ps)
    | (false, ps) =>
      match parseParamTypeF f ps with
      | none => none
      | some (p, ps) =>
        if ps.checkT .R_PAREN then typeParamsLoopF f ps (acc ++ [p])
        else
          typeParamsLoopF f ((ps.expectT .COMMA msgExpectedCommaType).2)
            (acc ++ [p])

/-- `parseParam` of the type parselet. -/
def parseParamTypeF : Nat → PState → Option ((String × PType) × PState)
  | 0, _ => none
  | f + 1, ps =>
    let (nameTok, ps) := ps.expectT .NAME msgExpectedParamName
    match ps.matchT .COLON with
    | (true, ps) =>
      match parseTypeF f ps with
      | none => none
      | some (t, ps) => some ((nameTok.raw, t.type), ps)
    | (false, ps) => some ((nameTok.raw, (.reg t_any : PType)), ps)

/-- `parseGenericInstance(name)` (`'<'` already consumed). -/
def genericInstanceF : Nat → Token → PState → List PType →
    Option (TypeInfo × PState)
  | 0, _, _, _ => none
  | f + 1, nameTok, ps, acc =>
    match ps.matchT .GREATER with
    | (true, ps) =>
      some (⟨nameTok, .genericInst nameTok.raw acc⟩, ps)
    | (false, ps) =>
      match parseTypeF f ps with
      | none => none
      | some (t, ps) =>
        match ps.matchT .COMMA with
        | (true, ps) => genericInstanceF f nameTok ps (acc ++ [t.type])
        | (false, ps) =>
          some (⟨nameTok, .genericInst nameTok.raw (acc ++ [t.type])⟩,
            (ps.expectT .GREATER msgExpectedCommaType).2)

/-- `parseObjectType` (`while (!parser.match(R_BRACE) && !parser.eof())`). -/
def objectTypeF : Nat → PState → List (String × PType) →
    Option (List (String × PType) × PState)
  | 0, _, _ => none
  | f + 1, ps, acc =>
    match ps.matchT .R_BRACE with
    | (true, ps) => some (acc, ps)
    | (false, ps) =>
      if ps.eofP then some (acc, ps)
      else
        let (nameTok, ps) := ps.expectT .NAME msgExpectedPropName
        let (_, ps) := ps.expectT .COLON msgExpectedColonField
        match parseTypeF f ps with
        | none => none
        | some (t, ps) =>
          objectTypeF f (ps.consume2 .COMMA .SEMI_COLON)
            (acc ++ [(nameTok.raw, t.type)])

end

/-- `AveParser.parse()`: the top-level statement loop
`while (!this.ast.hasError && !this.match(TokenType.EOF))`; each parsed
statement's hoisted declarations accumulate into the program body. -/
def parseLoopF : Nat → PState → List Stmt → List Decl →
    Option ((List Stmt × List Decl) × PState)
  | 0, _, _, _ => none
  | f + 1, ps, accS, accD =>
    if ps.hasError then some ((accS, accD), ps)
    else
      match ps.matchT .EOF with
      | (true, ps) => some ((accS, accD), ps)
      | (false, ps) =>
        match statementF f ps with
        | none => none
        | some ((st, ds), ps) => parseLoopF f ps (accS ++ [st]) (accD ++ ds)

/-- Parse a whole token stream from a fresh parser state. -/
def parseProgramF (fuel : Nat) (ts : List Token) :
    Option ((List Stmt × List Decl) × PState) :=
  parseLoopF fuel (initPS ts) [] []

/-- Does a hoisted declaration come from the `HoistedVarDeclaration` class
(as opposed to a `FuncDeclaration`)? -/
def Decl.isHoisted : Decl → Bool
  | .hoistedVar _ _ => true
  | .funcD _ => false

/-! Concrete tokens for running the parser on small token streams. -/

/-- A payload-free token, for building concrete token streams. -/
def mkTok (t : TT) (raw : String) : Token :=
  { type := t, raw := raw, value := .null, startPos := 0, endPos := 0,
    line := 1 }

/-- A numeric-literal token. -/
def mkNumTok (raw : String) : Token :=
  { type := .LITERAL_NUM, raw := raw, value := .numText raw,
    startPos := 0, endPos := 0, line := 1 }

def tkA : Token := mkTok .NAME ("a")
def tkB : Token := mkTok .NAME ("b")
def tkC : Token := mkTok .NAME ("c")
def tkX : Token := mkTok .NAME ("x")
def tkI : Token := mkTok .NAME ("i")
def tkPlus : Token := mkTok .PLUS ("+")
def tkStar : Token := mkTok .STAR ("*")
def tkPow : Token := mkTok .POW ("**")
def tkEq : Token := mkTok .EQ ("=")
def tkOne : Token := mkNumTok ("1")
def tkTwo : Token := mkNumTok ("2")
def tkComma : Token := mkTok .COMMA (",")
def tkColon : Token := mkTok .COLON (":")
def tkIndent : Token := mkTok .INDENT ("")
def tkDedent : Token := mkTok .DEDENT ("")
def tkFor : Token := mkTok .FOR ("for")
def tkRParen : Token := mkTok .R_PAREN (")")
def tkEOF : Token := mkTok .EOF ("")

/-- The token stream of a `for i = 1, 2` loop (colon omitted, as the
statement grammar allows) with a one-statement body `x`. -/
def forToks : List Token :=
  [tkFor, tkI, tkEq, tkOne, tkComma, tkTwo, tkIndent, tkX, tkDedent, tkEOF]

/-- C9: `AveParser.isValidType` returns `true` for every token: every
token kind satisfies `token.type >= TokenType.STRING` or
`token.type <= TokenType.ANY`, so the disjunctive guard is a tautology
and the `NAME` fallback is unreachable. -/
theorem isValidType_total (t : Token) : isValidType t = true := by
  cases t with
  | mk ty raw v s e l => cases ty <;> rfl

/-- C8: the Pratt parser honours the precedence table: `a + b * c`
parses to `a + (b * c)`; assignment is right-associative, so `a = b = 1`
parses to `a = (b = 1)`; `**` is right-associative, so `a ** b ** c`
parses to `a ** (b ** c)`. -/
theorem pratt_precedence_and_associativity :
    (∃ ps, parseExpressionF 12 Prec.NONE
        (initPS [tkA, tkPlus, tkB, tkStar, tkC, tkEOF]) =
      some (.binary (.ident tkA) tkPlus
        (.binary (.ident tkB) tkStar (.ident tkC)), ps)) ∧
    (∃ ps, parseExpressionF 12 Prec.NONE
        (initPS [tkA, tkEq, tkB, tkEq, tkOne, tkEOF]) =
      some (.assign (.ident tkA) tkEq
        (.assign (.ident tkB) tkEq
          (.literal tkOne (.ofTok tkOne.value))), ps)) ∧
    (∃ ps, parseExpressionF 12 Prec.NONE
        (initPS [tkA, tkPow, tkB, tkPow, tkC, tkEOF]) =
      some (.binary (.ident tkA) tkPow
        (.binary (.ident tkB) tkPow (.ident tkC)), ps)) :=
  ⟨⟨_, rfl⟩, ⟨_, rfl⟩, ⟨_, rfl⟩⟩

set_option maxRecDepth 8000 in
/-- C1 counterexample: on the token stream `) a <EOF>` the unexpected
`)` sets `hasError`, and the parse loop then stops at position 1 with
the EOF token still unconsumed at index 2 - an error *does* stop the
parse before EOF is reached. -/
theorem parse_stops_before_eof_counterexample :
    ∃ (r : List Stmt × List Decl) (ps : PState),
      parseProgramF 10 [tkRParen, tkA, tkEOF] = some (r, ps) ∧
      ps.hasError = true ∧ ps.pos = 1 ∧
      (ps.tokens.getD 2 tkA).type = .EOF :=
  ⟨_, _, rfl, rfl, rfl, rfl⟩

/-- C1 (amended): whenever `AveParser.parse`'s statement loop exits, it
does so either because `hasError` is set or because an EOF token was
just matched - so diagnostics accumulate and parsing continues until
EOF *unless* an error has been recorded, in which case the loop stops
early. -/
theorem parse_halts_only_on_error_or_eof (f : Nat) (ps : PState)
    (accS : List Stmt) (accD : List Decl) (r : List Stmt × List Decl)
    (ps2 : PState) (h : parseLoopF f ps accS accD = some (r, ps2)) :
    ps2.hasError = true ∨ ps2.prevT.type = .EOF := by
  induction f generalizing ps accS accD with
  | zero => exact Option.noConfusion h
  | succ f ih =>
    rw [parseLoopF] at h
    split at h
    · rename_i herr
      simp only [Option.some.injEq, Prod.mk.injEq] at h
      obtain ⟨-, hps⟩ := h
      subst hps
      exact Or.inl herr
    · split at h
      · rename_i heq
        simp only [Option.some.injEq, Prod.mk.injEq] at h
        obtain ⟨-, hps⟩ := h
        subst hps
        simp only [PState.matchT] at heq
        split at heq
        · rename_i hchk
          simp only [Prod.mk.injEq] at heq
          obtain ⟨-, hps1⟩ := heq
          subst hps1
          right
          simp only [PState.checkT, beq_iff_eq] at hchk
          simpa [PState.prevT, PState.advP, PState.peekT] using hchk
        · simp at heq
      · split at h
        · exact Option.noConfusion h
        · exact ih _ _ _ h

/-- The loop-exit theorem at a concrete input: a lone EOF token. -/
theorem parse_halts_only_on_error_or_eof_witness :
    ∃ (r : List Stmt × List Decl) (ps2 : PState),
      parseLoopF 5 (initPS [tkEOF]) [] [] = some (r, ps2) ∧
      (ps2.hasError = true ∨ ps2.prevT.type = .EOF) :=
  ⟨_, _, rfl, parse_halts_only_on_error_or_eof 5 (initPS [tkEOF]) [] [] _ _ rfl⟩

/-- A return statement contributes no hoisted declarations to its
enclosing block scope. -/
lemma returnStmtF_decls (f : Nat) (ps : PState) (st : Stmt) (ds : List Decl)
    (ps2 : PState) (h : returnStmtF f ps = some ((st, ds), ps2)) : ds = [] := by
  cases f with
  | zero => exact Option.noConfusion h
  | succ f =>
    rw [returnStmtF] at h
    try dsimp only at h
    repeat' split at h
    all_goals first
      | exact Option.noConfusion h
      | (simp only [Option.some.injEq, Prod.mk.injEq] at h; exact h.1.2.symm)

/-- An if statement contributes no hoisted declarations to its enclosing
block scope (its branches hoist into their own bodies). -/
lemma ifStmtF_decls (f : Nat) (ps : PState) (st : Stmt) (ds : List Decl)
    (ps2 : PState) (h : ifStmtF f ps = some ((st, ds), ps2)) : ds = [] := by
  cases f with
  | zero => exact Option.noConfusion h
  | succ f =>
    rw [ifStmtF] at h
    try dsimp only at h
    repeat' split at h
    all_goals first
      | exact Option.noConfusion h
      | (simp only [Option.some.injEq, Prod.mk.injEq] at h; exact h.1.2.symm)

/-- A for statement contributes no hoisted declarations to its enclosing
block scope (the counter is hoisted into the loop body itself). -/
lemma forStmtF_decls (f : Nat) (ps : PState) (st : Stmt) (ds : List Decl)
    (ps2 : PState) (h : forStmtF f ps = some ((st, ds), ps2)) : ds = [] := by
  cases f with
  | zero => exact Option.noConfusion h
  | succ f =>
    rw [forStmtF] at h
    try dsimp only at h
    repeat' split at h
    all_goals first
      | exact Option.noConfusion h
      | (simp only [Option.some.injEq, Prod.mk.injEq] at h; exact h.1.2.symm)

/-- A `var`/`let`/`const` declaration contributes no hoisted
declarations to its enclosing block scope. -/
lemma varDeclarationF_decls (f : Nat) (tok : Token) (ps : PState) (st : Stmt)
    (ds : List Decl) (ps2 : PState)
    (h : varDeclarationF f tok ps = some ((st, ds), ps2)) : ds = [] := by
  cases f with
  | zero => exact Option.noConfusion h
  | succ f =>
    rw [varDeclarationF] at h
    try dsimp only at h
    repeat' split at h
    all_goals first
      | exact Option.noConfusion h
      | (simp only [Option.some.injEq, Prod.mk.injEq] at h; exact h.1.2.symm)

/-- A sugar declaration (`NAME ':' ...`) contributes no hoisted
declarations to its enclosing block scope. -/
lemma sugarDeclF_decls (f : Nat) (ps : PState) (st : Stmt) (ds : List Decl)
    (ps2 : PState) (h : sugarDeclF f ps = some ((st, ds), ps2)) : ds = [] := by
  cases f with
  | zero => exact Option.noConfusion h
  | succ f =>
    rw [sugarDeclF] at h
    try dsimp only at h
    repeat' split at h
    all_goals first
      | exact Option.noConfusion h
      | (simp only [Option.some.injEq, Prod.mk.injEq] at h; exact h.1.2.symm)

/-- A record declaration contributes no hoisted declarations to its
enclosing block scope. -/
lemma recordDeclF_decls (f : Nat) (ps : PState) (st : Stmt) (ds : List Decl)
    (ps2 : PState) (h : recordDeclF f ps = some ((st, ds), ps2)) : ds = [] := by
  cases f with
  | zero => exact Option.noConfusion h
  | succ f =>
    rw [recordDeclF] at h
    try dsimp only at h
    repeat' split at h
    all_goals first
      | exact Option.noConfusion h
      | (simp only [Option.some.injEq, Prod.mk.injEq] at h; exact h.1.2.symm)

/-- A function declaration contributes exactly one `FuncDeclaration`
entry to its enclosing block scope. -/
lemma funcDeclF_decls (f : Nat) (ps : PState) (st : Stmt) (ds : List Decl)
    (ps2 : PState) (h : funcDeclF f ps = some ((st, ds), ps2)) :
    ∃ n, ds = [Decl.funcD n] := by
  cases f with
  | zero => exact Option.noConfusion h
  | succ f =>
    rw [funcDeclF] at h
    try dsimp only at h
    repeat' split at h
    all_goals first
      | exact Option.noConfusion h
      | (simp only [Option.some.injEq, Prod.mk.injEq] at h;
         exact ⟨_, h.1.2.symm⟩)

/-- A declaration contributes either nothing or a single
`FuncDeclaration` entry to its enclosing block scope. -/
lemma declarationF_decls (f : Nat) (ps : PState) (st : Stmt) (ds : List Decl)
    (ps2 : PState) (h : declarationF f ps = some ((st, ds), ps2)) :
    ds = [] ∨ ∃ n, ds = [Decl.funcD n] := by
  cases f with
  | zero => exact Option.noConfusion h
  | succ f =>
    rw [declarationF] at h
    try dsimp only at h
    split at h
    · exact Or.inl (varDeclarationF_decls _ _ _ _ _ _ h)
    · split at h
      · exact Or.inl (sugarDeclF_decls _ _ _ _ _ h)
      · split at h
        · exact Or.inr (funcDeclF_decls _ _ _ _ _ h)
        · split at h
          · exact Or.inl (recordDeclF_decls _ _ _ _ _ h)
          · repeat' split at h
            all_goals first
              | exact Option.noConfusion h
              | (simp only [Option.some.injEq, Prod.mk.injEq] at h;
                 exact Or.inl h.1.2.symm)

/-- No statement contributes a `HoistedVarDeclaration` to its enclosing
block scope - only `FuncDeclaration` entries ever flow upward. -/
lemma statementF_decls (f : Nat) (ps : PState) (st : Stmt) (ds : List Decl)
    (ps2 : PState) (h : statementF f ps = some ((st, ds), ps2)) :
    ∀ d ∈ ds, d.isHoisted = false := by
  cases f with
  | zero => exact Option.noConfusion h
  | succ f =>
    rw [statementF] at h
    split at h
    · have := ifStmtF_decls _ _ _ _ _ h
      subst this; intro d hd; exact absurd hd (List.not_mem_nil d)
    · split at h
      · have := forStmtF_decls _ _ _ _ _ h
        subst this; intro d hd; exact absurd hd (List.not_mem_nil d)
      · split at h
        · have := returnStmtF_decls _ _ _ _ _ h
          subst this; intro d hd; exact absurd hd (List.not_mem_nil d)
        · rcases declarationF_decls _ _ _ _ _ h with h1 | ⟨n, h1⟩ <;>
            subst h1 <;> intro d hd
          · exact absurd hd (List.not_mem_nil d)
          · rcases List.mem_singleton.mp hd with rfl
            rfl

/-- The unguarded statement-block loop never accumulates a
`HoistedVarDeclaration` beyond those already present. -/
lemma blockF_no_hoist (f : Nat) : ∀ (ps : PState) (accS : List Stmt)
    (accD : List Decl) (stmts : List Stmt) (decls : List Decl) (ps2 : PState),
    blockF f ps accS accD = some ((stmts, decls), ps2) →
    (∀ d ∈ accD, d.isHoisted = false) →
    ∀ d ∈ decls, d.isHoisted = false := by
  induction f with
  | zero => intro ps accS accD stmts decls ps2 h; exact Option.noConfusion h
  | succ f ih =>
    intro ps accS accD stmts decls ps2 h hacc
    rw [blockF] at h
    split at h
    · simp only [Option.some.injEq, Prod.mk.injEq] at h
      obtain ⟨⟨hs, hd⟩, hps⟩ := h
      subst hd
      exact hacc
    · split at h
      · exact Option.noConfusion h
      · rename_i heq
        refine ih _ _ _ _ _ _ h ?_
        intro d hd
        rcases List.mem_append.mp hd with h1 | h2
        · exact hacc d h1
        · exact statementF_decls f _ _ _ _ heq d h2

/-- C10: after `forStmt` parses any for statement, the loop body's
declarations list contains exactly two `HoistedVarDeclaration` entries,
both for the loop-counter name and both with type num - one pushed
before the body's statements are parsed and one after. -/
theorem forStmt_double_hoisted_counter (f : Nat) (ps : PState) (st : Stmt)
    (ds : List Decl) (ps2 : PState)
    (h : forStmtF f ps = some ((st, ds), ps2)) :
    ds = [] ∧ ∃ kw nameTok start stop step body,
      st = Stmt.forS kw nameTok start stop step body ∧
      body.declarations.filter Decl.isHoisted =
        [Decl.hoistedVar nameTok.raw t_number,
         Decl.hoistedVar nameTok.raw t_number] := by
  cases f with
  | zero => exact Option.noConfusion h
  | succ f =>
    rw [forStmtF] at h
    try dsimp only at h
    repeat' split at h
    all_goals try exact Option.noConfusion h
    all_goals
      rename_i heqB
    all_goals
      simp only [Option.some.injEq, Prod.mk.injEq] at h
    all_goals
      obtain ⟨⟨hst, hds⟩, -⟩ := h
    all_goals
      refine ⟨hds.symm, _, _, _, _, _, _, hst.symm, ?_⟩
    all_goals
      rename_i bStmts bDecls bPs
    all_goals
      have hfil : List.filter Decl.isHoisted bDecls = [] :=
        List.filter_eq_nil.mpr (fun d hd => by
          simp [blockF_no_hoist _ _ _ _ _ _ _ heqB
            (fun d2 hd2 => absurd hd2 (List.not_mem_nil d2)) d hd])
    all_goals
      simp [Body.declarations, Decl.isHoisted, hfil]

set_option maxRecDepth 8000 in
/-- The double-hoisting theorem at a concrete run: `for i = 1, 2` with a
one-statement body. -/
theorem forStmt_double_hoisted_counter_witness :
    ∃ (st : Stmt) (ds : List Decl) (ps2 : PState),
      forStmtF 20 (initPS forToks) = some ((st, ds), ps2) ∧
      (ds = [] ∧ ∃ kw nameTok start stop step body,
        st = Stmt.forS kw nameTok start stop step body ∧
        body.declarations.filter Decl.isHoisted =
          [Decl.hoistedVar nameTok.raw t_number,
           Decl.hoistedVar nameTok.raw t_number]) :=
  ⟨_, _, _, rfl, forStmt_double_hoisted_counter 20 (initPS forToks) _ _ _ rfl⟩
